import Mathlib

/-! # GO-X authentication backend: shallow embedding and verified properties

The Go sources embedded here are `utils/jwt.go`, `models/user.go`,
`middleware/auth.go`, `controllers/LoginUser.go`, `controllers/RegisterUser.go`
and the `/protected` route of `routes/routes.go`.

Conventions of the embedding:

* a Go `string` is a Lean `String`; a Go `error` is a value of an error type,
  `nil` being `none` / the `ok` side of `Except`;
* `time.Now()` is an explicit parameter `now : Int`, in Unix seconds;
* the relational store is an explicit value `DB` passed through the handlers,
  together with the list of statements a handler has executed;
* a nil pointer dereference or a failed type assertion is the outcome `panic`;
* the third-party libraries (token library, bcrypt, validator) are not part of
  the repository sources: their primitives are parameters (`TokenLib`,
  `Bcrypt`, the e-mail predicate) and the library logic built on them is
  modelled from the specification.
-/

namespace GoX

/-! ## JSON values and string maps -/

/-- A JSON scalar as it occurs in token headers, token claims and response bodies. -/
inductive JValue where
  | null
  | str (s : String)
  | num (n : Int)
  deriving DecidableEq, Repr

/-- Go `map[string]interface{}` restricted to scalar values, as an association list
read with `List.lookup`. -/
abbrev JObject := List (String × JValue)

/-- Go map assignment `m[k] = v`. -/
def JObject.set (m : JObject) (k : String) (v : JValue) : JObject :=
  (m.filter (fun e => e.1 != k)) ++ [(k, v)]

/-! ## Token library (github.com/golang-jwt/jwt/v4) -/

/-- Go `strings.Split(s, sep)` for a one-character separator, on character lists. -/
def splitOnChar (sep : Char) : List Char → List (List Char)
  | [] => [[]]
  | c :: cs =>
    if c = sep then [] :: splitOnChar sep cs
    else
      match splitOnChar sep cs with
      | [] => [[c]]
      | seg :: segs => (c :: seg) :: segs

/-- The segments of a compact token: `strings.Split(tokenString, ".")`. -/
def segments (tokenString : String) : List String :=
  (splitOnChar '.' tokenString.data).map String.mk

/-- Primitives of the token library that the repository does not contain:
the segment codec (JSON plus base64url) and the keyed MAC. -/
structure TokenLib where
  /-- Serialises a JSON object to one token segment. -/
  encodeSegment : JObject → String
  /-- Parses one token segment; `none` when the segment is not a serialised object. -/
  decodeSegment : String → Option JObject
  /-- Computes the signature segment: algorithm name, key, signing string. -/
  hmac : String → String → String → String

/-- What the theorems assume of the primitives: decoding a serialised object gives back
the same map, and neither a serialised object nor a signature contains the segment
separator. -/
structure TokenLib.Lawful (L : TokenLib) : Prop where
  decode_encode : ∀ o : JObject, ∃ o2 : JObject,
    L.decodeSegment (L.encodeSegment o) = some o2 ∧ ∀ k : String, o2.lookup k = o.lookup k
  encode_nodot : ∀ o : JObject, '.' ∉ (L.encodeSegment o).data
  hmac_nodot : ∀ alg key msg : String, '.' ∉ (L.hmac alg key msg).data

/-- The signing method types of the token library. -/
inductive SigningMethod where
  | HMAC (alg : String)
  | RSA (alg : String)
  | RSAPSS (alg : String)
  | ECDSA (alg : String)
  | Ed25519
  | None
  deriving DecidableEq, Repr

/-- The algorithm name a signing method writes into the header. -/
def SigningMethod.Alg : SigningMethod → String
  | .HMAC a => a
  | .RSA a => a
  | .RSAPSS a => a
  | .ECDSA a => a
  | .Ed25519 => "EdDSA"
  | .None => "none"

/-- Modelled from the spec: the registry of signing methods of the token library, which is
not under src/. The HMAC family is HS256, HS384 and HS512; every other registered name
belongs to another family. -/
def GetSigningMethod (alg : String) : Option SigningMethod :=
  if alg = "HS256" ∨ alg = "HS384" ∨ alg = "HS512" then some (.HMAC alg)
  else if alg = "RS256" ∨ alg = "RS384" ∨ alg = "RS512" then some (.RSA alg)
  else if alg = "PS256" ∨ alg = "PS384" ∨ alg = "PS512" then some (.RSAPSS alg)
  else if alg = "ES256" ∨ alg = "ES384" ∨ alg = "ES512" then some (.ECDSA alg)
  else if alg = "EdDSA" then some .Ed25519
  else if alg = "none" then some .None
  else none

/-- The `jwt.SigningMethodHS256` value. -/
def SigningMethodHS256 : SigningMethod := .HMAC "HS256"

/-- The token library type `jwt.MapClaims`. -/
abbrev MapClaims := JObject

/-- The token library type `jwt.Token`. -/
structure Token where
  Raw : String
  Method : SigningMethod
  Header : JObject
  Claims : MapClaims
  Signature : String
  Valid : Bool
  deriving DecidableEq, Repr

/-- The kinds of failure a token verification reports. -/
inductive ErrFlag where
  | Malformed
  | Unverifiable
  | SignatureInvalid
  | Expired
  deriving DecidableEq, Repr

/-- A Go `error` returned by token verification: a validation error of the library with
its failure kinds, or a plain `errors.New` value. -/
inductive JwtError where
  | validation (inner : String) (flags : List ErrFlag)
  | plain (msg : String)
  deriving DecidableEq, Repr

/-- The failure kinds carried by an error. -/
def JwtError.flags : JwtError → List ErrFlag
  | .validation _ fs => fs
  | .plain _ => []

/-- Modelled from the spec: the constructor `jwt.New(method)` of the token library, which
is not under src/: a header naming the algorithm and an empty claim map. -/
def New (method : SigningMethod) : Token :=
  { Raw := "", Method := method,
    Header := [("typ", .str "JWT"), ("alg", .str method.Alg)],
    Claims := [], Signature := "", Valid := false }

/-- Modelled from the spec: `SigningMethod.Sign` of the token library, which is not under
src/. An HMAC method signs with a byte-string key; the other families need a key of
another type and fail on a byte string. -/
def SigningMethod.Sign (L : TokenLib) (m : SigningMethod) (signingString key : String) :
    Except String String :=
  match m with
  | .HMAC alg => .ok (L.hmac alg key signingString)
  | _ => .error "key is of invalid type"

/-- Modelled from the spec: `SigningMethod.Verify` of the token library, which is not
under src/: recomputes the expected signature and compares it with the supplied one. -/
def SigningMethod.Verify (L : TokenLib) (m : SigningMethod)
    (signingString signature key : String) : Option String :=
  match m with
  | .HMAC alg =>
    if L.hmac alg key signingString = signature then none else some "signature is invalid"
  | _ => some "key is of invalid type"

/-- Modelled from the spec: `Token.SignedString` of the token library, which is not under
src/: serialises header and claims, signs the two segments joined by a dot and returns the
three segments joined by dots. -/
def Token.SignedString (L : TokenLib) (t : Token) (key : String) : Except String String :=
  let sstr := L.encodeSegment t.Header ++ "." ++ L.encodeSegment t.Claims
  match t.Method.Sign L sstr key with
  | .error e => .error e
  | .ok sig => .ok (sstr ++ "." ++ sig)

/-- Modelled from the spec: the expiry check of `MapClaims` in the token library, which is
not under src/: a token without `exp` passes unless the claim is required, and a token
with `exp` is expired when `now >= exp`. -/
def MapClaims.VerifyExpiresAt (m : MapClaims) (cmp : Int) (req : Bool) : Bool :=
  match m.lookup "exp" with
  | none => !req
  | some (.num e) => decide (cmp < e)
  | some _ => false

/-- Modelled from the spec: `jwt.Parse` of the token library, which is not under src/.
The token must have three segments; header and claims must decode; the header must name a
registered algorithm; the key function is asked for the key; then the expiry of the claims
and the signature over the first two segments are checked, and the token is valid only
when both checks pass. -/
def Parse (L : TokenLib) (now : Int) (tokenString : String)
    (keyFunc : Token → Except String String) : Except JwtError Token :=
  match segments tokenString with
  | [h, p, s] =>
    match L.decodeSegment h with
    | none => .error (.validation "header segment cannot be decoded" [.Malformed])
    | some header =>
      match L.decodeSegment p with
      | none => .error (.validation "claims segment cannot be decoded" [.Malformed])
      | some claims =>
        match header.lookup "alg" with
        | some (.str alg) =>
          match GetSigningMethod alg with
          | none => .error (.validation "signing method (alg) is unavailable." [.Unverifiable])
          | some method =>
            let token : Token :=
              { Raw := tokenString, Method := method, Header := header, Claims := claims,
                Signature := "", Valid := false }
            match keyFunc token with
            | .error e => .error (.validation e [.Unverifiable])
            | .ok key =>
              let claimFlags : List ErrFlag :=
                if MapClaims.VerifyExpiresAt claims now false then [] else [.Expired]
              let sigFlags : List ErrFlag :=
                match method.Verify L (h ++ "." ++ p) s key with
                | none => []
                | some _ => [.SignatureInvalid]
              if claimFlags ++ sigFlags = [] then
                .ok { token with Signature := s, Valid := true }
              else
                .error (.validation "token is invalid" (claimFlags ++ sigFlags))
        | _ => .error (.validation "signing method (alg) is unspecified." [.Unverifiable])
  | _ => .error (.validation "token contains an invalid number of segments" [.Malformed])

/-! ## utils/jwt.go -/

/-- The package variable `jwtSecretKey`. -/
def jwtSecretKey : String := "your-secret-key"

/-- The claim map that `GenerateJWT` fills in: `claims["username"] = username` and
`claims["exp"] = time.Now().Add(time.Hour * 24).Unix()`. -/
def GenerateJWT.claims (now : Int) (username : String) : MapClaims :=
  (((New SigningMethodHS256).Claims.set "username" (.str username)).set "exp"
    (.num (now + 24 * 3600)))

/-- The function `GenerateJWT` of utils/jwt.go: a new HS256 token with the claims above,
signed with the secret key. -/
def GenerateJWT (L : TokenLib) (now : Int) (username : String) : Except String String :=
  let token := { New SigningMethodHS256 with Claims := GenerateJWT.claims now username }
  match token.SignedString L jwtSecretKey with
  | .error err => .error err
  | .ok tokenString => .ok tokenString

/-- The key function that `ValidateJWT` hands to `jwt.Parse`: only a token whose method is
of the HMAC type gets the secret key. -/
def ValidateJWT.keyFunc (token : Token) : Except String String :=
  match token.Method with
  | .HMAC _ => .ok jwtSecretKey
  | _ => .error "invalid signing method"

/-- The function `ValidateJWT` of utils/jwt.go. -/
def ValidateJWT (L : TokenLib) (now : Int) (tokenString : String) :
    Except JwtError MapClaims :=
  match Parse L now tokenString ValidateJWT.keyFunc with
  | .error err => .error err
  | .ok token =>
    if token.Valid then .ok token.Claims
    else .error (.plain "invalid or expired token")

/-- The header segment of every token that `GenerateJWT` issues. -/
def issuedHeader (L : TokenLib) : String :=
  L.encodeSegment (New SigningMethodHS256).Header

/-- The payload segment of the token that `GenerateJWT` issues at time `now`. -/
def issuedPayload (L : TokenLib) (now : Int) (username : String) : String :=
  L.encodeSegment (GenerateJWT.claims now username)

/-- The signature segment of the token that `GenerateJWT` issues at time `now`. -/
def issuedSignature (L : TokenLib) (now : Int) (username : String) : String :=
  L.hmac "HS256" jwtSecretKey (issuedHeader L ++ "." ++ issuedPayload L now username)

/-! ## Password hashing library (golang.org/x/crypto/bcrypt) -/

/-- Primitives of the bcrypt library, which the repository does not contain. The salt
that the library draws at random is an explicit argument. -/
structure Bcrypt where
  /-- Hashes a password: salt, password, cost; fails with an error text. -/
  GenerateFromPassword : String → String → Nat → Except String String
  /-- Compares a stored hash with a password; `none` is the Go `nil` error (a match). -/
  CompareHashAndPassword : String → String → Option String

/-- The constant `bcrypt.DefaultCost`. -/
def Bcrypt.DefaultCost : Nat := 10

/-- Modelled from the spec: what the theorems that take the hasher as a parameter assume of
it, from the invariant of the Password Hasher, which is not under src/: a generated hash is
never equal to the plaintext it was generated from. -/
structure Bcrypt.Lawful (B : Bcrypt) : Prop where
  hash_ne_plaintext : ∀ (salt password : String) (cost : Nat) (hash : String),
    B.GenerateFromPassword salt password cost = .ok hash → hash ≠ password

/-- The constant `bcrypt.MinCost`. -/
def Bcrypt.MinCost : Nat := 4

/-- The constant `bcrypt.MaxCost`. -/
def Bcrypt.MaxCost : Nat := 31

/-- The 22 characters of a bcrypt salt, from the random draw of the library. -/
def bcryptSalt (draw : String) : List Char :=
  (draw.data ++ List.replicate 22 '.').take 22

/-- The cost as the two decimal digits of a bcrypt hash. -/
def costDigits (cost : Nat) : List Char :=
  [Char.ofNat (48 + cost / 10), Char.ofNat (48 + cost % 10)]

/-- Reads back `costDigits`. -/
def costOfDigits : List Char → Nat
  | [d1, d2] => (d1.toNat - 48) * 10 + (d2.toNat - 48)
  | _ => 0

/-- The hash string of bcrypt: version, cost, salt and digest in one string. -/
def formatHash (cost : Nat) (salt digest : List Char) : String :=
  String.mk ('$' :: '2' :: 'a' :: '$' :: (costDigits cost ++ '$' :: (salt ++ digest)))

/-- Takes a hash string apart into cost, salt and digest; `none` when it is malformed. -/
def parseHash (hash : String) : Option (Nat × List Char × List Char) :=
  if hash.data.take 4 = ['$', '2', 'a', '$'] ∧ (hash.data.drop 6).take 1 = ['$'] ∧
      29 ≤ hash.data.length then
    some (costOfDigits ((hash.data.drop 4).take 2), (hash.data.drop 7).take 22,
      hash.data.drop 29)
  else none

/-- Modelled from the spec: the Password Hasher (bcrypt), which is not under src/, over its
key-derivation primitive `core` (cost, salt, password to digest), which is a parameter.
`hash` fails on an empty input and when the primitive fails, that is on a cost out of range
and on an input longer than the 72 bytes bcrypt operates on; otherwise it returns a string
in which cost and salt are embedded. `verify` fails on a malformed hash and otherwise
recomputes the digest with the embedded cost and salt and compares. -/
def bcryptModel (core : Nat → List Char → String → List Char) : Bcrypt where
  GenerateFromPassword draw password cost :=
    if password = "" then .error "crypto/bcrypt: empty password"
    else if 72 < password.utf8ByteSize then
      .error "bcrypt: password length exceeds 72 bytes"
    else if cost < Bcrypt.MinCost ∨ Bcrypt.MaxCost < cost then
      .error "crypto/bcrypt: cost outside allowed range"
    else .ok (formatHash cost (bcryptSalt draw) (core cost (bcryptSalt draw) password))
  CompareHashAndPassword hash password :=
    match parseHash hash with
    | none => some "crypto/bcrypt: hashedSecret too short to be a bcrypted password"
    | some (cost, salt, digest) =>
      if core cost salt password = digest then none
      else some "crypto/bcrypt: hashedPassword is not the hash of the given password"

/-! ## Credential store (database/sql over the `users` table) -/

/-- The struct `User` of models/user.go. -/
structure User where
  ID : Int
  Username : String
  Email : String
  Password : String
  deriving DecidableEq, Repr

/-- A statement executed on the store. -/
inductive DbOp where
  | select (username : String)
  | insert (username email password : String)
  deriving DecidableEq, Repr

/-- The state of the credential store: the rows of `users`, the driver error that a query
or a write currently runs into (if any), and the statements executed so far. -/
structure DB where
  rows : List User
  queryFault : Option String
  execFault : Option String
  log : List DbOp
  deriving DecidableEq, Repr

/-- The error of a single-row query. -/
inductive SqlError where
  | ErrNoRows
  | driver (msg : String)
  deriving DecidableEq, Repr

/-- The text of a query error, Go `err.Error()`. -/
def SqlError.Error : SqlError → String
  | .ErrNoRows => "sql: no rows in result set"
  | .driver msg => msg

/-- Modelled from the spec: the store lookup `findByUsername`, run by
`db.QueryRow("SELECT id, username, email, password FROM users WHERE username = ?", username).Scan(...)`;
the database is not under src/. The result is the first row with that username, not found,
or a store error. -/
def DB.QueryRowScan (db : DB) (username : String) : Except SqlError User × DB :=
  let db2 := { db with log := db.log ++ [.select username] }
  match db.queryFault with
  | some msg => (.error (.driver msg), db2)
  | none =>
    match db.rows.find? (fun r => r.Username == username) with
    | none => (.error .ErrNoRows, db2)
    | some r => (.ok r, db2)

/-- Modelled from the spec: the store write `insert`, run by
`db.Exec("INSERT INTO users (username, email, password) VALUES (?, ?, ?)", ...)`; the
database is not under src/. The write fails on a store error and on a duplicate username or
e-mail, and otherwise appends one row with a fresh id. -/
def DB.ExecInsert (db : DB) (username email password : String) : Option String × DB :=
  let db2 := { db with log := db.log ++ [.insert username email password] }
  match db.execFault with
  | some msg => (some msg, db2)
  | none =>
    if db.rows.any (fun r => r.Username == username || r.Email == email) then
      (some "Error 1062: Duplicate entry", db2)
    else
      (none, { db2 with rows := db.rows ++
        [{ ID := db.rows.length + 1, Username := username, Email := email,
           Password := password }] })

/-! ## models/user.go -/

/-- The method `User.Register` of models/user.go: inserts the user, returning the error of
the statement, if any. -/
def User.Register (u : User) (db : DB) : Option String × DB :=
  match db.ExecInsert u.Username u.Email u.Password with
  | (some err, db2) => (some err, db2)
  | (none, db2) => (none, db2)

/-- The function `HashPassword` of models/user.go. -/
def HashPassword (B : Bcrypt) (salt password : String) : Except String String :=
  match B.GenerateFromPassword salt password Bcrypt.DefaultCost with
  | .error err => .error err
  | .ok hash => .ok hash

/-- The function `GetUserByUsernameAndPassword` of models/user.go. The Go result
`(*User, error)` is `ok none` for `(nil, nil)`, `ok (some user)` for `(&user, nil)` and
`error text` for `(nil, err)`. -/
def GetUserByUsernameAndPassword (B : Bcrypt) (db : DB) (username password : String) :
    Except String (Option User) × DB :=
  match db.QueryRowScan username with
  | (.error err, db2) =>
    if err = .ErrNoRows then (.ok none, db2)
    else (.error err.Error, db2)
  | (.ok user, db2) =>
    match B.CompareHashAndPassword user.Password password with
    | some err => (.error err, db2)
    | none => (.ok (some user), db2)

/-! ## HTTP layer (github.com/gofiber/fiber/v2) -/

/-- An HTTP response written with `c.Status(code).JSON(fiber.Map ...)`. -/
structure Response where
  status : Nat
  body : JObject
  deriving DecidableEq, Repr

/-- How a handler ends: with a response, or with a Go run-time panic. -/
inductive Outcome where
  | response (r : Response)
  | panic (msg : String)
  deriving DecidableEq, Repr

/-- What a handler sees of the request body: `c.Body()` is empty, `c.BodyParser` fails
with an error, or `c.BodyParser` fills the request struct. -/
inductive Body (α : Type) where
  | empty
  | unparsable (err : String)
  | parsed (req : α)

/-- The dynamic type and value of an entry of the request-local storage `c.Locals`. -/
inductive Dyn where
  | MapClaims (m : MapClaims)
  | Map (m : JObject)
  deriving DecidableEq, Repr

/-- The request-local storage of a fiber context. -/
abbrev Locals := List (String × Dyn)

/-- How a middleware ends: it answers itself, or it calls `c.Next()` with the locals it
has stored. -/
inductive MiddlewareResult where
  | respond (r : Response)
  | next (locals : Locals)
  deriving DecidableEq, Repr

/-- Go `strings.HasPrefix(s, p)`. -/
def startsWith (s p : String) : Bool := p.data.isPrefixOf s.data

/-- Go `strings.TrimPrefix(s, p)`. -/
def trimStart (s p : String) : String :=
  if startsWith s p then String.mk (s.data.drop p.length) else s

/-! ## middleware/auth.go -/

/-- The middleware `ProtectRoute` of middleware/auth.go, applied to the value of the
`Authorization` header. -/
def ProtectRoute (L : TokenLib) (now : Int) (authHeader : String) : MiddlewareResult :=
  if authHeader = "" then
    .respond { status := 401, body := [("status", .str "error"),
      ("message", .str "Missing authorization token")] }
  else if !startsWith authHeader "Bearer " then
    .respond { status := 401, body := [("status", .str "error"),
      ("message", .str "Invalid authorization token format")] }
  else
    let tokenString := trimStart authHeader "Bearer "
    match ValidateJWT L now tokenString with
    | .error _ =>
      .respond { status := 401, body := [("status", .str "error"),
        ("message", .str "Invalid or expired token")] }
    | .ok claims => .next [("claims", .MapClaims claims)]

/-! ## routes/routes.go -/

/-- The handler of `GET /protected` of routes/routes.go: asserts that the stored claims
have the type `map[string]interface{}` and answers with the `username` entry. -/
def protectedHandler (locals : Locals) : Outcome :=
  match locals.lookup "claims" with
  | some (.Map claims) =>
    .response { status := 200, body := [("status", .str "success"),
      ("user", (claims.lookup "username").getD .null)] }
  | some (.MapClaims _) =>
    .panic "interface conversion: interface {} is jwt.MapClaims, not map[string]interface {}"
  | none => .panic "interface conversion: interface {} is nil, not map[string]interface {}"

/-- The route `GET /protected`: `ProtectRoute` followed by the handler. -/
def protectedRoute (L : TokenLib) (now : Int) (authHeader : String) : Outcome :=
  match ProtectRoute L now authHeader with
  | .respond r => .response r
  | .next locals => protectedHandler locals

/-! ## Validation library (github.com/go-playground/validator/v10) -/

/-- The validation tags used by the request structs. -/
inductive Tag where
  | required
  | min (n : Nat)
  | max (n : Nat)
  | email
  deriving DecidableEq, Repr

/-- The name of a tag as it appears in an error text. -/
def Tag.name : Tag → String
  | .required => "required"
  | .min _ => "min"
  | .max _ => "max"
  | .email => "email"

/-- Modelled from the spec: the meaning of a validation tag on a string field; the
validator library is not under src/. `required` asks for a non-empty value, `min` and `max`
bound the number of characters, `email` asks for a syntactically valid address, decided by
the parameter `isEmail`. -/
def Tag.holds (isEmail : String → Bool) (t : Tag) (v : String) : Bool :=
  match t with
  | .required => v != ""
  | .min n => decide (n ≤ v.length)
  | .max n => decide (v.length ≤ n)
  | .email => isEmail v

/-- Modelled from the spec: validation of one field, which reports the first tag of the
field that does not hold; the validator library is not under src/. -/
def firstFailing (isEmail : String → Bool) (tags : List Tag) (v : String) : Option Tag :=
  tags.find? (fun t => !t.holds isEmail v)

/-- Modelled from the spec: the text of one field error of the validator library, which is
not under src/. -/
def fieldErrorText (structName field : String) (t : Tag) : String :=
  let q := String.singleton (Char.ofNat 39)
  "Key: " ++ q ++ structName ++ "." ++ field ++ q ++ " Error:Field validation for " ++
    q ++ field ++ q ++ " failed on the " ++ q ++ t.name ++ q ++ " tag"

/-- Modelled from the spec: `validate.Struct` of the validator library, which is not under
src/, on a struct of tagged string fields: `none` when every field passes, otherwise the
error text listing the failing fields in declaration order. -/
def validateStruct (isEmail : String → Bool) (structName : String)
    (fields : List (String × List Tag × String)) : Option String :=
  let errs := fields.filterMap (fun f =>
    (firstFailing isEmail f.2.1 f.2.2).map (fieldErrorText structName f.1))
  if errs = [] then none else some (String.intercalate "\n" errs)

/-! ## controllers/LoginUser.go -/

/-- The struct `LoginRequest` of controllers/LoginUser.go. -/
structure LoginRequest where
  Username : String
  Password : String
  deriving DecidableEq, Repr

/-- The handler `LoginUser` of controllers/LoginUser.go. The password check on a missing
user is commented out in the source, so `user.Username` is evaluated on whatever
`GetUserByUsernameAndPassword` returned, also on a nil pointer. -/
def LoginUser (B : Bcrypt) (L : TokenLib) (now : Int) (db : DB) (body : Body LoginRequest) :
    Outcome × DB :=
  match body with
  | .empty =>
    (.response { status := 400, body := [("status", .str "error"),
      ("message", .str "Request body cannot be empty")] }, db)
  | .unparsable err =>
    (.response { status := 422, body := [("status", .str "error"),
      ("message", .str "Invalid input format"), ("errors", .str err)] }, db)
  | .parsed loginRequest =>
    if loginRequest.Username = "" ∨ loginRequest.Password = "" then
      (.response { status := 400, body := [("status", .str "error"),
        ("message", .str "Username and password are required")] }, db)
    else
      match GetUserByUsernameAndPassword B db loginRequest.Username loginRequest.Password with
      | (.error err, db2) =>
        (.response { status := 500, body := [("status", .str "error"),
          ("message", .str "Failed to authenticate user"), ("Error", .str err)] }, db2)
      | (.ok none, db2) =>
        (.panic "runtime error: invalid memory address or nil pointer dereference", db2)
      | (.ok (some user), db2) =>
        match GenerateJWT L now user.Username with
        | .error err =>
          (.response { status := 500, body := [("status", .str "error"),
            ("message", .str "Failed to generate token"), ("Error", .str err)] }, db2)
        | .ok token =>
          (.response { status := 200, body := [("status", .str "success"),
            ("message", .str "Login successful"), ("token", .str token)] }, db2)

/-! ## controllers/RegisterUser.go -/

/-- The struct `RegisterRequest` of controllers/RegisterUser.go. -/
structure RegisterRequest where
  Username : String
  Email : String
  Password : String
  deriving DecidableEq, Repr

/-- The validation tags of the fields of `RegisterRequest`, in declaration order. -/
def RegisterRequest.fields (r : RegisterRequest) : List (String × List Tag × String) :=
  [("Username", [.required, .min 3, .max 50], r.Username),
   ("Email", [.required, .email], r.Email),
   ("Password", [.required, .min 6, .max 50], r.Password)]

/-- The function `sanitizeInput` of controllers/RegisterUser.go. -/
def sanitizeInput (input : String) : String := input

/-- The handler `RegisterUser` of controllers/RegisterUser.go. -/
def RegisterUser (B : Bcrypt) (L : TokenLib) (isEmail : String → Bool) (salt : String)
    (now : Int) (db : DB) (body : Body RegisterRequest) : Outcome × DB :=
  match body with
  | .empty =>
    (.response { status := 400, body := [("status", .str "error"),
      ("message", .str "Request body cannot be empty"),
      ("errors", .str "Invalid request format")] }, db)
  | .unparsable err =>
    (.response { status := 422, body := [("status", .str "error"),
      ("message", .str "Review your input"), ("errors", .str err)] }, db)
  | .parsed registerRequest0 =>
    match validateStruct isEmail "RegisterRequest" registerRequest0.fields with
    | some err =>
      (.response { status := 400, body := [("status", .str "error"),
        ("message", .str "Invalid request body"), ("errors", .str err)] }, db)
    | none =>
      let registerRequest : RegisterRequest :=
        { registerRequest0 with
          Username := sanitizeInput registerRequest0.Username,
          Email := sanitizeInput registerRequest0.Email }
      match GetUserByUsernameAndPassword B db registerRequest.Username
          registerRequest.Password with
      | (.error _, db2) =>
        (.response { status := 500, body := [("status", .str "error"),
          ("message", .str "Internal server error")] }, db2)
      | (.ok (some _), db2) =>
        (.response { status := 400, body := [("status", .str "error"),
          ("message", .str "Username already taken")] }, db2)
      | (.ok none, db2) =>
        match HashPassword B salt registerRequest.Password with
        | .error _ =>
          (.response { status := 500, body := [("status", .str "error"),
            ("message", .str "Failed to process registration")] }, db2)
        | .ok hashedPassword =>
          let user : User :=
            { ID := 0, Username := registerRequest.Username, Email := registerRequest.Email,
              Password := hashedPassword }
          match user.Register db2 with
          | (some _, db3) =>
            (.response { status := 500, body := [("status", .str "error"),
              ("message", .str "Failed to register user")] }, db3)
          | (none, db3) =>
            match GenerateJWT L now registerRequest.Username with
            | .error _ =>
              (.response { status := 500, body := [("status", .str "error"),
                ("message", .str "Failed to generate JWT")] }, db3)
            | .ok token =>
              (.response { status := 201, body := [("status", .str "success"),
                ("message", .str "User registered successfully"),
                ("token", .str token)] }, db3)

/-- The validation policy for register requests in the words of the specification: all
three fields non-empty, the username of 3 to 50 characters, the password of 6 to 50
characters, the e-mail syntactically valid. -/
def RegisterRequest.Acceptable (isEmail : String → Bool) (r : RegisterRequest) : Prop :=
  r.Username ≠ "" ∧ r.Email ≠ "" ∧ r.Password ≠ "" ∧
  3 ≤ r.Username.length ∧ r.Username.length ≤ 50 ∧
  6 ≤ r.Password.length ∧ r.Password.length ≤ 50 ∧
  isEmail r.Email = true

/-! ## A concrete instance of the library primitives

The instance below shows that the assumptions made of the primitives can be met. A JSON
object is written as a comma-led list of `key:value` entries in which the separators
occurring inside strings are escaped, so a segment never contains a dot; a signature is the
escaped signing input, so distinct signing strings get distinct signatures. -/

/-- Escapes one character: the separators and the escape character itself become two
characters. -/
def escChar (c : Char) : List Char :=
  if c = '.' then ['%', 'd']
  else if c = ',' then ['%', 'c']
  else if c = ':' then ['%', 'k']
  else if c = '%' then ['%', 'p']
  else [c]

/-- The character that an escape code stands for. -/
def unescCode (x : Char) : Char :=
  if x = 'd' then '.' else if x = 'c' then ',' else if x = 'k' then ':' else '%'

/-- Escapes a string. -/
def esc : List Char → List Char
  | [] => []
  | c :: cs => escChar c ++ esc cs

/-- Undoes `esc`. -/
def unesc : List Char → List Char
  | [] => []
  | [c] => [c]
  | c :: x :: rest => if c = '%' then unescCode x :: unesc rest else c :: unesc (x :: rest)

/-- A natural number in decimal digits, least significant first. -/
def encNat (n : Nat) : List Char := (Nat.digits 10 n).map (fun d => Char.ofNat (48 + d))

/-- Reads back `encNat`. -/
def decNat (cs : List Char) : Nat := Nat.ofDigits 10 (cs.map (fun c => c.toNat - 48))

/-- An integer as a sign letter and its absolute value. -/
def encInt (i : Int) : List Char := (if i < 0 then 'm' else 'p') :: encNat i.natAbs

/-- Reads back `encInt`. -/
def decInt : List Char → Int
  | [] => 0
  | c :: cs => if c = 'm' then -(decNat cs : Int) else (decNat cs : Int)

/-- A JSON scalar as a tag letter and its content. -/
def encValue : JValue → List Char
  | .null => ['n']
  | .str s => 's' :: esc s.data
  | .num i => 'i' :: encInt i

/-- Reads back `encValue`. -/
def decValue : List Char → Option JValue
  | [] => none
  | t :: rest =>
    if t = 'n' then (if rest = [] then some .null else none)
    else if t = 's' then some (.str (String.mk (unesc rest)))
    else if t = 'i' then some (.num (decInt rest))
    else none

/-- One entry of an object: escaped key, colon, value. -/
def encEntry (e : String × JValue) : List Char := esc e.1.data ++ ':' :: encValue e.2

/-- Reads back `encEntry`. -/
def decEntry (l : List Char) : Option (String × JValue) :=
  match splitOnChar ':' l with
  | [k, v] => (decValue v).map (fun x => (String.mk (unesc k), x))
  | _ => none

/-- An object: every entry led by a comma. -/
def encObject : JObject → List Char
  | [] => []
  | e :: es => ',' :: (encEntry e ++ encObject es)

/-- Reads back a list of entries. -/
def decEntries : List (List Char) → Option JObject
  | [] => some []
  | x :: xs =>
    match decEntry x, decEntries xs with
    | some e, some es => some (e :: es)
    | _, _ => none

/-- Reads back `encObject`. -/
def decObject (l : List Char) : Option JObject :=
  match splitOnChar ',' l with
  | [] :: es => decEntries es
  | _ => none

/-- A token library instance with the wire format above. -/
def modelTokenLib : TokenLib where
  encodeSegment o := String.mk (encObject o)
  decodeSegment s := decObject s.data
  hmac alg key msg := String.mk (esc (alg.data ++ ',' :: (key.data ++ ',' :: msg.data)))

/-- A bcrypt instance: the hash is the salt followed by the password, and a hash matches
the passwords it ends with. -/
def modelBcrypt : Bcrypt where
  GenerateFromPassword salt password _ := .ok ("$2a$10$" ++ salt ++ password)
  CompareHashAndPassword hash password :=
    if password.data.isSuffixOf hash.data then none
    else some "crypto/bcrypt: hashedPassword is not the hash of the given password"

/-- A key-derivation instance for `bcryptModel`: the digest is the password read backwards
after the salt. -/
def modelCore (_cost : Nat) (salt : List Char) (password : String) : List Char :=
  salt ++ password.data.reverse

/-- A password of 50 characters and 150 bytes: fifty euro signs. -/
def longPassword : String := String.mk (List.replicate 50 '€')

/-- An e-mail predicate instance: an address is a string with an at sign. -/
def modelIsEmail (s : String) : Bool := s.data.contains '@'

/-- A store with the single user `ann`, whose password `secret1` was hashed by
`modelBcrypt` with the salt `salt`. -/
def sampleDB : DB :=
  { rows := [{ ID := 1, Username := "ann", Email := "ann@x.com",
               Password := "$2a$10$saltsecret1" }],
    queryFault := none, execFault := none, log := [] }

/-! ## Lemmas on splitting and on the library model -/

theorem splitOnChar_of_not_mem (sep : Char) (a : List Char) (h : sep ∉ a) :
    splitOnChar sep a = [a] := by
  induction a with
  | nil => rfl
  | cons c cs ih =>
    have hc : c ≠ sep := fun e => h (by simp [e])
    have hcs : sep ∉ cs := fun m => h (List.mem_cons_of_mem _ m)
    simp [splitOnChar, hc, ih hcs]

theorem splitOnChar_append_sep (sep : Char) (a rest : List Char) (h : sep ∉ a) :
    splitOnChar sep (a ++ sep :: rest) = a :: splitOnChar sep rest := by
  induction a with
  | nil => simp [splitOnChar]
  | cons c cs ih =>
    have hc : c ≠ sep := fun e => h (by simp [e])
    have hcs : sep ∉ cs := fun m => h (List.mem_cons_of_mem _ m)
    simp [splitOnChar, hc, ih hcs]

theorem data_join3 (h p s : String) :
    (h ++ "." ++ p ++ "." ++ s).data = h.data ++ '.' :: (p.data ++ '.' :: s.data) := by
  simp [String.data_append]

theorem segments_join3 (h p s : String) (hh : '.' ∉ h.data) (hp : '.' ∉ p.data)
    (hs : '.' ∉ s.data) : segments (h ++ "." ++ p ++ "." ++ s) = [h, p, s] := by
  unfold segments
  rw [data_join3, splitOnChar_append_sep _ _ _ hh, splitOnChar_append_sep _ _ _ hp,
    splitOnChar_of_not_mem _ _ hs]
  rfl

theorem GenerateJWT.claims_eq (now : Int) (username : String) :
    GenerateJWT.claims now username
      = [("username", .str username), ("exp", .num (now + 24 * 3600))] := by
  simp [GenerateJWT.claims, New, JObject.set]

theorem GenerateJWT_eq (L : TokenLib) (now : Int) (username : String) :
    GenerateJWT L now username
      = .ok (L.encodeSegment (New SigningMethodHS256).Header ++ "." ++
          L.encodeSegment (GenerateJWT.claims now username) ++ "." ++
          L.hmac "HS256" jwtSecretKey
            (L.encodeSegment (New SigningMethodHS256).Header ++ "." ++
              L.encodeSegment (GenerateJWT.claims now username))) := by
  simp [GenerateJWT, Token.SignedString, SigningMethod.Sign, New, SigningMethodHS256]

theorem splitOnChar_cons_sep (sep : Char) (l : List Char) :
    splitOnChar sep (sep :: l) = [] :: splitOnChar sep l := by
  simp [splitOnChar]

theorem splitOnChar_append_of_not_mem (sep : Char) (a l seg : List Char)
    (segs : List (List Char)) (h : sep ∉ a) (hl : splitOnChar sep l = seg :: segs) :
    splitOnChar sep (a ++ l) = (a ++ seg) :: segs := by
  induction a with
  | nil => simpa using hl
  | cons c cs ih =>
    have hc : c ≠ sep := fun e => h (by simp [e])
    have hcs : sep ∉ cs := fun m => h (List.mem_cons_of_mem _ m)
    simp [splitOnChar, hc, ih hcs]

theorem unesc_cons_of_ne (c : Char) (l : List Char) (h : c ≠ '%') :
    unesc (c :: l) = c :: unesc l := by
  cases l with
  | nil => simp [unesc]
  | cons x rest => simp [unesc, h]

theorem unesc_esc (l : List Char) : unesc (esc l) = l := by
  induction l with
  | nil => rfl
  | cons c cs ih =>
    unfold esc escChar
    split_ifs with h1 h2 h3 h4
    · subst h1; simp [unesc, unescCode, ih]
    · subst h2; simp [unesc, unescCode, ih]
    · subst h3; simp [unesc, unescCode, ih]
    · subst h4; simp [unesc, unescCode, ih]
    · simp only [List.singleton_append]
      rw [unesc_cons_of_ne _ _ h4, ih]

theorem escChar_safe (a : Char) : ∀ c ∈ escChar a, c ≠ '.' ∧ c ≠ ',' ∧ c ≠ ':' := by
  intro c hc
  unfold escChar at hc
  split_ifs at hc with h1 h2 h3 h4
  · simp only [List.mem_cons, List.mem_singleton, List.not_mem_nil, or_false] at hc
    rcases hc with hc | hc <;> (subst hc; decide)
  · simp only [List.mem_cons, List.mem_singleton, List.not_mem_nil, or_false] at hc
    rcases hc with hc | hc <;> (subst hc; decide)
  · simp only [List.mem_cons, List.mem_singleton, List.not_mem_nil, or_false] at hc
    rcases hc with hc | hc <;> (subst hc; decide)
  · simp only [List.mem_cons, List.mem_singleton, List.not_mem_nil, or_false] at hc
    rcases hc with hc | hc <;> (subst hc; decide)
  · simp only [List.mem_singleton] at hc
    subst hc
    exact ⟨h1, h2, h3⟩

theorem esc_safe (l : List Char) : ∀ c ∈ esc l, c ≠ '.' ∧ c ≠ ',' ∧ c ≠ ':' := by
  induction l with
  | nil => simp [esc]
  | cons a as ih =>
    intro c hc
    unfold esc at hc
    rcases List.mem_append.mp hc with h | h
    · exact escChar_safe a c h
    · exact ih c h

theorem decNat_encNat (n : Nat) : decNat (encNat n) = n := by
  unfold decNat encNat
  rw [List.map_map]
  have hmap : (Nat.digits 10 n).map
      ((fun c : Char => c.toNat - 48) ∘ (fun d => Char.ofNat (48 + d))) = Nat.digits 10 n := by
    conv_rhs => rw [← List.map_id (Nat.digits 10 n)]
    apply List.map_congr_left
    intro d hd
    have hlt : d < 10 := Nat.digits_lt_base (by norm_num) hd
    interval_cases d <;> rfl
  rw [hmap, Nat.ofDigits_digits]

theorem encNat_safe (n : Nat) : ∀ c ∈ encNat n, c ≠ '.' ∧ c ≠ ',' ∧ c ≠ ':' := by
  intro c hc
  unfold encNat at hc
  obtain ⟨d, hd, rfl⟩ := List.mem_map.mp hc
  have hlt : d < 10 := Nat.digits_lt_base (by norm_num) hd
  interval_cases d <;> decide

theorem decInt_encInt (i : Int) : decInt (encInt i) = i := by
  unfold encInt decInt
  by_cases h : i < 0
  · simp only [if_pos h, if_true, decNat_encNat]
    omega
  · have hpm : ('p' = 'm') = False := by decide
    simp only [if_neg h, hpm, if_false, decNat_encNat]
    omega

theorem decValue_encValue (v : JValue) : decValue (encValue v) = some v := by
  cases v with
  | null => rfl
  | str s =>
    have h1 : ('s' = 'n') = False := by decide
    simp only [encValue, decValue, h1, if_false, if_true, unesc_esc]
  | num i =>
    have h1 : ('i' = 'n') = False := by decide
    have h2 : ('i' = 's') = False := by decide
    simp only [encValue, decValue, h1, h2, if_false, if_true, decInt_encInt]

theorem encValue_safe (v : JValue) : ∀ c ∈ encValue v, c ≠ '.' ∧ c ≠ ',' ∧ c ≠ ':' := by
  intro c hc
  cases v with
  | null =>
    simp only [encValue, List.mem_singleton] at hc
    subst hc; decide
  | str s =>
    simp only [encValue, List.mem_cons] at hc
    rcases hc with hc | hc
    · subst hc; decide
    · exact esc_safe _ c hc
  | num i =>
    simp only [encValue, encInt, List.mem_cons] at hc
    rcases hc with hc | hc | hc
    · subst hc; decide
    · subst hc; split_ifs <;> decide
    · exact encNat_safe _ c hc

theorem decEntry_encEntry (e : String × JValue) : decEntry (encEntry e) = some e := by
  have hk : ':' ∉ esc e.1.data := fun h => (esc_safe _ _ h).2.2 rfl
  have hv : ':' ∉ encValue e.2 := fun h => (encValue_safe _ _ h).2.2 rfl
  unfold decEntry encEntry
  rw [splitOnChar_append_sep _ _ _ hk, splitOnChar_of_not_mem _ _ hv]
  simp [decValue_encValue, unesc_esc]

theorem encEntry_safe (e : String × JValue) : ∀ c ∈ encEntry e, c ≠ '.' ∧ c ≠ ',' := by
  intro c hc
  unfold encEntry at hc
  rcases List.mem_append.mp hc with h | h
  · exact ⟨(esc_safe _ c h).1, (esc_safe _ c h).2.1⟩
  · rcases List.mem_cons.mp h with h | h
    · subst h; decide
    · exact ⟨(encValue_safe _ c h).1, (encValue_safe _ c h).2.1⟩

theorem splitOnChar_encObject (o : JObject) :
    splitOnChar ',' (encObject o) = [] :: o.map encEntry := by
  induction o with
  | nil => rfl
  | cons e es ih =>
    have he : ',' ∉ encEntry e := fun h => (encEntry_safe _ _ h).2 rfl
    unfold encObject
    rw [splitOnChar_cons_sep, splitOnChar_append_of_not_mem _ _ _ _ _ he ih]
    simp

theorem decEntries_map_encEntry (o : JObject) : decEntries (o.map encEntry) = some o := by
  induction o with
  | nil => rfl
  | cons e es ih => simp [decEntries, decEntry_encEntry, ih]

theorem decObject_encObject (o : JObject) : decObject (encObject o) = some o := by
  unfold decObject
  rw [splitOnChar_encObject]
  exact decEntries_map_encEntry o

theorem encObject_nodot (o : JObject) : '.' ∉ encObject o := by
  induction o with
  | nil => simp [encObject]
  | cons e es ih =>
    unfold encObject
    intro h
    rcases List.mem_cons.mp h with h | h
    · exact absurd h (by decide)
    · rcases List.mem_append.mp h with h | h
      · exact (encEntry_safe _ _ h).1 rfl
      · exact ih h

theorem modelTokenLib_decode_encode (o : JObject) :
    modelTokenLib.decodeSegment (modelTokenLib.encodeSegment o) = some o :=
  decObject_encObject o

theorem modelTokenLib_lawful : modelTokenLib.Lawful where
  decode_encode := fun o => ⟨o, modelTokenLib_decode_encode o, fun _ => rfl⟩
  encode_nodot := fun o => encObject_nodot o
  hmac_nodot := fun _ _ _ h => (esc_safe _ _ h).1 rfl

theorem GenerateJWT_issued (L : TokenLib) (now : Int) (username : String) :
    GenerateJWT L now username
      = .ok (issuedHeader L ++ "." ++ issuedPayload L now username ++ "." ++
          issuedSignature L now username) :=
  GenerateJWT_eq L now username

/-- What `ValidateJWT` answers on a token issued by `GenerateJWT`: the decoded claim map,
which agrees with the issued one on every key, while the token has not expired, and the
expiry error from the expiry time on. -/
theorem ValidateJWT_issued (L : TokenLib) (hL : L.Lawful) (username : String)
    (now now2 : Int) :
    ∃ tok claims, GenerateJWT L now username = .ok tok ∧
      (∀ k, claims.lookup k = (GenerateJWT.claims now username).lookup k) ∧
      ValidateJWT L now2 tok =
        if now2 < now + 24 * 3600 then .ok claims
        else .error (.validation "token is invalid" [.Expired]) := by
  obtain ⟨hdr, hhdr, hhl⟩ := hL.decode_encode (New SigningMethodHS256).Header
  obtain ⟨cl, hcl, hcll⟩ := hL.decode_encode (GenerateJWT.claims now username)
  refine ⟨_, cl, GenerateJWT_eq L now username, hcll, ?_⟩
  have hseg := segments_join3 (L.encodeSegment (New SigningMethodHS256).Header)
    (L.encodeSegment (GenerateJWT.claims now username))
    (L.hmac "HS256" jwtSecretKey
      (L.encodeSegment (New SigningMethodHS256).Header ++ "." ++
        L.encodeSegment (GenerateJWT.claims now username)))
    (hL.encode_nodot _) (hL.encode_nodot _) (hL.hmac_nodot _ _ _)
  have halg : hdr.lookup "alg" = some (.str "HS256") := by
    rw [hhl]; decide
  have hexp : cl.lookup "exp" = some (.num (now + 24 * 3600)) := by
    rw [hcll, GenerateJWT.claims_eq]; simp [List.lookup]
  have hget : GetSigningMethod "HS256" = some (.HMAC "HS256") := by decide
  unfold ValidateJWT Parse
  rw [hseg]
  simp only [hhdr, hcl, halg, hget, ValidateJWT.keyFunc, MapClaims.VerifyExpiresAt, hexp,
    SigningMethod.Verify]
  by_cases hlt : now2 < now + 86400
  · simp [hlt]
  · simp [hlt]

/-! ## C1: a successful login -/

theorem GetUserByUsernameAndPassword_some (B : Bcrypt) (db db2 : DB)
    (username password : String) (user : User)
    (h : GetUserByUsernameAndPassword B db username password = (.ok (some user), db2)) :
    user ∈ db.rows ∧ user.Username = username ∧
      B.CompareHashAndPassword user.Password password = none := by
  unfold GetUserByUsernameAndPassword DB.QueryRowScan at h
  cases hq : db.queryFault with
  | some msg => simp [hq] at h
  | none =>
    cases hf : db.rows.find? (fun r => r.Username == username) with
    | none => simp [hq, hf] at h
    | some row =>
      cases hc : B.CompareHashAndPassword row.Password password with
      | some err => simp [hq, hf, hc] at h
      | none =>
        simp only [hq, hf, hc] at h
        have hrow : row = user := by
          have := congrArg Prod.fst h
          simpa using this
        subst hrow
        refine ⟨List.mem_of_find?_eq_some hf, ?_, hc⟩
        have := List.find?_some hf
        simpa using this

/-- C1: for every store state and every login request, `LoginUser` answers with status 200
only when the store holds a user with the requested username whose stored hash verifies
against the supplied password (bcrypt comparison without error); in that case the response
carries a token on which `ValidateJWT` succeeds with a claim map whose `username` entry is
the requested username. -/
theorem LoginUser_success_sound (B : Bcrypt) (L : TokenLib) (hL : L.Lawful) (now : Int)
    (db db2 : DB) (req : LoginRequest) (r : Response)
    (hrun : LoginUser B L now db (.parsed req) = (.response r, db2))
    (hok : r.status = 200) :
    ∃ user ∈ db.rows, user.Username = req.Username ∧
      B.CompareHashAndPassword user.Password req.Password = none ∧
      ∃ tok claims, r.body.lookup "token" = some (.str tok) ∧
        ValidateJWT L now tok = .ok claims ∧
        claims.lookup "username" = some (.str req.Username) := by
  unfold LoginUser at hrun
  simp only at hrun
  split_ifs at hrun with hempty
  · cases hrun
    simp at hok
  · cases hg : GetUserByUsernameAndPassword B db req.Username req.Password with
    | mk res db3 =>
      rw [hg] at hrun
      match res, hg with
      | .error err, _ =>
        cases hrun
        simp at hok
      | .ok none, _ => cases hrun
      | .ok (some user), hg =>
        obtain ⟨hmem, hname, hcmp⟩ :=
          GetUserByUsernameAndPassword_some B db db3 req.Username req.Password user hg
        obtain ⟨tok, claims, hgen, hlook, hval⟩ :=
          ValidateJWT_issued L hL user.Username now now
        simp only [hgen] at hrun
        cases hrun
        refine ⟨user, hmem, hname, hcmp, tok, claims, by simp [List.lookup], ?_, ?_⟩
        · rw [hval, if_pos (by omega)]
        · rw [hlook, GenerateJWT.claims_eq, hname]
          simp [List.lookup]

theorem LoginUser_success_sound_witness :
    (modelTokenLib.Lawful ∧
      LoginUser modelBcrypt modelTokenLib 1700000000 sampleDB (.parsed ⟨"ann", "secret1"⟩)
        = (.response { status := 200, body := [("status", .str "success"),
              ("message", .str "Login successful"),
              ("token", .str (issuedHeader modelTokenLib ++ "." ++
                issuedPayload modelTokenLib 1700000000 "ann" ++ "." ++
                issuedSignature modelTokenLib 1700000000 "ann"))] },
            { sampleDB with log := [.select "ann"] }) ∧
      (200 : Nat) = 200) ∧
    ∃ user ∈ sampleDB.rows, user.Username = "ann" ∧
      modelBcrypt.CompareHashAndPassword user.Password "secret1" = none ∧
      ∃ tok claims,
        List.lookup "token" [("status", JValue.str "success"),
            ("message", .str "Login successful"),
            ("token", .str (issuedHeader modelTokenLib ++ "." ++
              issuedPayload modelTokenLib 1700000000 "ann" ++ "." ++
              issuedSignature modelTokenLib 1700000000 "ann"))] = some (.str tok) ∧
        ValidateJWT modelTokenLib 1700000000 tok = .ok claims ∧
        claims.lookup "username" = some (.str "ann") :=
  have hrun : LoginUser modelBcrypt modelTokenLib 1700000000 sampleDB
      (.parsed ⟨"ann", "secret1"⟩)
        = (.response { status := 200, body := [("status", .str "success"),
              ("message", .str "Login successful"),
              ("token", .str (issuedHeader modelTokenLib ++ "." ++
                issuedPayload modelTokenLib 1700000000 "ann" ++ "." ++
                issuedSignature modelTokenLib 1700000000 "ann"))] },
            { sampleDB with log := [.select "ann"] }) := by
    have hget : GetUserByUsernameAndPassword modelBcrypt sampleDB "ann" "secret1"
        = (.ok (some ⟨1, "ann", "ann@x.com", "$2a$10$saltsecret1"⟩),
            { sampleDB with log := [.select "ann"] }) := by rfl
    unfold LoginUser
    simp only [hget, GenerateJWT_issued]
    rfl
  ⟨⟨modelTokenLib_lawful, hrun, rfl⟩,
    LoginUser_success_sound modelBcrypt modelTokenLib modelTokenLib_lawful 1700000000
      sampleDB _ ⟨"ann", "secret1"⟩ _ hrun rfl⟩

/-! ## C2: a token validates right after it is issued -/

/-- C2: for every username `u`, `ValidateJWT` applied at the time of issuance to the token
returned by `GenerateJWT u` returns no error and a claim map whose `username` entry is
`u`. -/
theorem GenerateJWT_ValidateJWT_roundtrip (L : TokenLib) (hL : L.Lawful) (username : String)
    (now : Int) :
    ∃ tok claims, GenerateJWT L now username = .ok tok ∧
      ValidateJWT L now tok = .ok claims ∧
      claims.lookup "username" = some (.str username) := by
  obtain ⟨tok, claims, hgen, hlook, hval⟩ := ValidateJWT_issued L hL username now now
  refine ⟨tok, claims, hgen, ?_, ?_⟩
  · rw [hval, if_pos (by omega)]
  · rw [hlook, GenerateJWT.claims_eq]
    simp [List.lookup]

theorem GenerateJWT_ValidateJWT_roundtrip_witness :
    modelTokenLib.Lawful ∧
    ∃ tok claims, GenerateJWT modelTokenLib 1700000000 "ann" = .ok tok ∧
      ValidateJWT modelTokenLib 1700000000 tok = .ok claims ∧
      claims.lookup "username" = some (.str "ann") :=
  ⟨modelTokenLib_lawful,
    GenerateJWT_ValidateJWT_roundtrip modelTokenLib modelTokenLib_lawful "ann" 1700000000⟩

/-! ## C3: wrong password against unknown user -/

/-- C3, evaluated on the code: on the store holding `ann`, a login as `ann` with a wrong
password is answered with status 500 and the text of the bcrypt error, and a login as a
user that does not exist dereferences the nil user and panics; neither is an
invalid-credentials response and the two differ. -/
theorem LoginUser_wrong_password_and_unknown_user :
    LoginUser modelBcrypt modelTokenLib 1700000000 sampleDB (.parsed ⟨"ann", "wrong"⟩)
      = (.response { status := 500, body := [("status", .str "error"),
            ("message", .str "Failed to authenticate user"),
            ("Error", .str
              "crypto/bcrypt: hashedPassword is not the hash of the given password")] },
          { sampleDB with log := [.select "ann"] }) ∧
    LoginUser modelBcrypt modelTokenLib 1700000000 sampleDB
        (.parsed ⟨"doesnotexist", "x"⟩)
      = (.panic "runtime error: invalid memory address or nil pointer dereference",
          { sampleDB with log := [.select "doesnotexist"] }) := by
  constructor <;> decide

/-! ## C4: registering a username that is taken -/

/-- C4, evaluated on the code: on the store holding `ann` with password `secret1`, a valid
register request for `ann` with the same password is answered with status 400 and
`Username already taken`, but with another password it is answered with status 500 and
`Internal server error`; in both cases no row is inserted. -/
theorem RegisterUser_taken_username :
    RegisterUser modelBcrypt modelTokenLib modelIsEmail "salt" 1700000000 sampleDB
        (.parsed ⟨"ann", "ann2@x.com", "secret1"⟩)
      = (.response { status := 400, body := [("status", .str "error"),
            ("message", .str "Username already taken")] },
          { sampleDB with log := [.select "ann"] }) ∧
    RegisterUser modelBcrypt modelTokenLib modelIsEmail "salt" 1700000000 sampleDB
        (.parsed ⟨"ann", "ann2@x.com", "secret2"⟩)
      = (.response { status := 500, body := [("status", .str "error"),
            ("message", .str "Internal server error")] },
          { sampleDB with log := [.select "ann"] }) := by
  constructor <;> decide

/-! ## C5: expiry -/

/-- C5: a token issued by `GenerateJWT` at time `issued` expires at `e = issued + 86400`;
at every verification time `now >= e`, the boundary `now = e` included, `ValidateJWT`
returns an error of the kind `Expired` and no claims, and at whatever time it returns
claims, that time is before `e`. -/
theorem ValidateJWT_expired (L : TokenLib) (hL : L.Lawful) (username : String)
    (issued now : Int) (hexp : issued + 86400 ≤ now) :
    ∃ tok, GenerateJWT L issued username = .ok tok ∧
      (∃ err, ValidateJWT L now tok = .error err ∧ ErrFlag.Expired ∈ err.flags) ∧
      (∀ now2 claims, ValidateJWT L now2 tok = .ok claims → now2 < issued + 86400) := by
  refine ⟨_, GenerateJWT_issued L issued username, ?_, ?_⟩
  · obtain ⟨tok, claims, hgen, _, hval⟩ := ValidateJWT_issued L hL username issued now
    rw [GenerateJWT_issued] at hgen
    cases hgen
    refine ⟨.validation "token is invalid" [.Expired], ?_, ?_⟩
    · rw [hval, if_neg (by omega)]
    · simp [JwtError.flags]
  · intro now2 c hc
    obtain ⟨tok, claims, hgen, _, hval⟩ := ValidateJWT_issued L hL username issued now2
    rw [GenerateJWT_issued] at hgen
    cases hgen
    by_contra hge
    rw [hval, if_neg (by omega)] at hc
    cases hc

theorem ValidateJWT_expired_witness :
    (modelTokenLib.Lawful ∧ (1700000000 : Int) + 86400 ≤ 1700086400) ∧
    ∃ tok, GenerateJWT modelTokenLib 1700000000 "ann" = .ok tok ∧
      (∃ err, ValidateJWT modelTokenLib 1700086400 tok = .error err ∧
        ErrFlag.Expired ∈ err.flags) ∧
      (∀ now2 claims, ValidateJWT modelTokenLib now2 tok = .ok claims →
        now2 < 1700000000 + 86400) :=
  ⟨⟨modelTokenLib_lawful, by decide⟩,
    ValidateJWT_expired modelTokenLib modelTokenLib_lawful "ann" 1700000000 1700086400
      (by decide)⟩

/-! ## C6: tampering with the payload -/

theorem issuedPayload_injective (L : TokenLib) (hL : L.Lawful) (now : Int)
    (u1 u2 : String) (h : issuedPayload L now u1 = issuedPayload L now u2) : u1 = u2 := by
  obtain ⟨o1, hd1, hl1⟩ := hL.decode_encode (GenerateJWT.claims now u1)
  obtain ⟨o2, hd2, hl2⟩ := hL.decode_encode (GenerateJWT.claims now u2)
  have h12 : o1 = o2 := by
    have : L.decodeSegment (issuedPayload L now u1) = L.decodeSegment (issuedPayload L now u2) :=
      congrArg _ h
    unfold issuedPayload at this
    rw [hd1, hd2] at this
    exact Option.some.inj this
  have hk := hl1 "username"
  rw [h12, hl2, GenerateJWT.claims_eq, GenerateJWT.claims_eq] at hk
  simpa [List.lookup] using hk.symm

theorem ValidateJWT_of_equal_signature (L : TokenLib) (hL : L.Lawful) (now : Int)
    (u1 u2 : String) (hsig : issuedSignature L now u1 = issuedSignature L now u2) :
    ∃ claims, ValidateJWT L now
        (issuedHeader L ++ "." ++ issuedPayload L now u2 ++ "." ++ issuedSignature L now u1)
          = .ok claims ∧
      claims.lookup "username" = some (.str u2) := by
  obtain ⟨tok, claims, hgen, hlook, hval⟩ := ValidateJWT_issued L hL u2 now now
  rw [GenerateJWT_issued] at hgen
  cases hgen
  rw [if_pos (by omega)] at hval
  refine ⟨claims, ?_, ?_⟩
  · rw [hsig]
    exact hval
  · rw [hlook, GenerateJWT.claims_eq]
    simp [List.lookup]

/-- A MAC with finitely many values, as every MAC of fixed length has, cannot tell all
payloads apart: two users get the same signature, and the token of the one with the
payload of the other is accepted. -/
theorem tampered_payload_accepted_of_finite_mac (L : TokenLib) (hL : L.Lawful) (now : Int)
    (hfin : (Set.range (fun msg => L.hmac "HS256" jwtSecretKey msg)).Finite) :
    ∃ u1 u2, issuedPayload L now u2 ≠ issuedPayload L now u1 ∧
      ∃ claims, ValidateJWT L now
          (issuedHeader L ++ "." ++ issuedPayload L now u2 ++ "." ++ issuedSignature L now u1)
            = .ok claims ∧
        claims.lookup "username" = some (.str u2) := by
  haveI := hfin.to_subtype
  obtain ⟨u1, u2, hne, heq⟩ := Finite.exists_ne_map_eq_of_infinite
    (fun u : String =>
      (⟨issuedSignature L now u, ⟨_, rfl⟩⟩ :
        ↥(Set.range (fun msg => L.hmac "HS256" jwtSecretKey msg))))
  have hsig : issuedSignature L now u1 = issuedSignature L now u2 :=
    congrArg Subtype.val heq
  refine ⟨u1, u2, ?_, ValidateJWT_of_equal_signature L hL now u1 u2 hsig⟩
  intro hp
  exact hne (issuedPayload_injective L hL now u2 u1 hp).symm

/-- C7: every token whose header declares a signing algorithm outside the HMAC family
(any name other than HS256, HS384, HS512, for instance none, RS256 or ES256) is answered by
`ValidateJWT` with an error and no claims, whatever its payload and signature segments
are; when the payload decodes and the name is a registered algorithm, the error is the
`invalid signing method` of the key function, raised before expiry and signature are
looked at. -/
theorem ValidateJWT_rejects_non_HMAC (L : TokenLib) (now : Int)
    (tokenString h p s : String) (hdr : JObject) (alg : String)
    (hseg : segments tokenString = [h, p, s])
    (hdec : L.decodeSegment h = some hdr)
    (halg : hdr.lookup "alg" = some (.str alg))
    (hfam : alg ≠ "HS256" ∧ alg ≠ "HS384" ∧ alg ≠ "HS512") :
    ∃ err, ValidateJWT L now tokenString = .error err ∧
      ∀ claims method, L.decodeSegment p = some claims →
        GetSigningMethod alg = some method →
        err = .validation "invalid signing method" [.Unverifiable] := by
  obtain ⟨h1, h2, h3⟩ := hfam
  unfold ValidateJWT Parse
  rw [hseg]
  simp only [hdec]
  cases hp : L.decodeSegment p with
  | none => exact ⟨_, rfl, fun _ _ hc _ => by cases hc⟩
  | some claims =>
    simp only [halg]
    cases hm : GetSigningMethod alg with
    | none => exact ⟨_, rfl, fun _ _ _ hg => by cases hg⟩
    | some method =>
      have hnot : ∀ a, method ≠ .HMAC a := by
        intro a hma
        rw [hma] at hm
        unfold GetSigningMethod at hm
        simp only [h1, h2, h3, false_or, if_false] at hm
        split_ifs at hm <;> cases hm
      cases method with
      | HMAC a => exact absurd rfl (hnot a)
      | RSA a => exact ⟨_, rfl, fun _ _ _ _ => rfl⟩
      | RSAPSS a => exact ⟨_, rfl, fun _ _ _ _ => rfl⟩
      | ECDSA a => exact ⟨_, rfl, fun _ _ _ _ => rfl⟩
      | Ed25519 => exact ⟨_, rfl, fun _ _ _ _ => rfl⟩
      | None => exact ⟨_, rfl, fun _ _ _ _ => rfl⟩

theorem ValidateJWT_rejects_non_HMAC_witness :
    (segments (modelTokenLib.encodeSegment [("alg", .str "none")] ++ "." ++
          modelTokenLib.encodeSegment [("username", .str "root")] ++ "." ++ "")
        = [modelTokenLib.encodeSegment [("alg", .str "none")],
           modelTokenLib.encodeSegment [("username", .str "root")], ""] ∧
      modelTokenLib.decodeSegment (modelTokenLib.encodeSegment [("alg", .str "none")])
        = some [("alg", .str "none")] ∧
      List.lookup "alg" [("alg", JValue.str "none")] = some (.str "none") ∧
      ("none" ≠ "HS256" ∧ "none" ≠ "HS384" ∧ "none" ≠ "HS512")) ∧
    (modelTokenLib.decodeSegment (modelTokenLib.encodeSegment [("username", .str "root")])
        = some [("username", .str "root")] ∧
      GetSigningMethod "none" = some .None) ∧
    ValidateJWT modelTokenLib 1700000000
      (modelTokenLib.encodeSegment [("alg", .str "none")] ++ "." ++
        modelTokenLib.encodeSegment [("username", .str "root")] ++ "." ++ "")
        = .error (.validation "invalid signing method" [.Unverifiable]) :=
  have hseg := segments_join3 (modelTokenLib.encodeSegment [("alg", .str "none")])
    (modelTokenLib.encodeSegment [("username", .str "root")]) ""
    (modelTokenLib_lawful.encode_nodot _) (modelTokenLib_lawful.encode_nodot _) (by decide)
  have hp := modelTokenLib_decode_encode [("username", .str "root")]
  have hm : GetSigningMethod "none" = some .None := by decide
  ⟨⟨hseg, modelTokenLib_decode_encode _, by decide, by decide⟩, ⟨hp, hm⟩,
    match ValidateJWT_rejects_non_HMAC modelTokenLib 1700000000
      (modelTokenLib.encodeSegment [("alg", .str "none")] ++ "." ++
        modelTokenLib.encodeSegment [("username", .str "root")] ++ "." ++ "")
      (modelTokenLib.encodeSegment [("alg", .str "none")])
      (modelTokenLib.encodeSegment [("username", .str "root")]) ""
      [("alg", .str "none")] "none" hseg (modelTokenLib_decode_encode _) (by decide)
      (by decide) with
    | ⟨_, herr, hkind⟩ => (hkind _ _ hp hm) ▸ herr⟩

/-! ## C8: validation of register requests -/

theorem firstFailing_eq_none_iff (isEmail : String → Bool) (tags : List Tag) (v : String) :
    firstFailing isEmail tags v = none ↔ ∀ t ∈ tags, t.holds isEmail v = true := by
  simp [firstFailing, List.find?_eq_none]

theorem validateStruct_eq_none_iff (isEmail : String → Bool) (structName : String)
    (fields : List (String × List Tag × String)) :
    validateStruct isEmail structName fields = none
      ↔ ∀ f ∈ fields, firstFailing isEmail f.2.1 f.2.2 = none := by
  unfold validateStruct
  simp only
  split_ifs with h
  · simp only [true_iff]
    intro f hf
    rw [List.filterMap_eq_nil_iff] at h
    have := h f hf
    simpa using this
  · simp only [false_iff]
    intro hall
    apply h
    rw [List.filterMap_eq_nil_iff]
    intro f hf
    simp [hall f hf]

theorem validate_RegisterRequest_iff (isEmail : String → Bool) (r : RegisterRequest) :
    validateStruct isEmail "RegisterRequest" r.fields = none ↔ r.Acceptable isEmail := by
  rw [validateStruct_eq_none_iff]
  simp only [RegisterRequest.fields, List.mem_cons, List.mem_singleton, forall_eq_or_imp,
    forall_eq, firstFailing_eq_none_iff, Tag.holds, RegisterRequest.Acceptable,
    List.not_mem_nil, false_implies, implies_true, and_true, bne_iff_ne, ne_eq,
    decide_eq_true_eq]
  tauto

theorem GetUserByUsernameAndPassword_db (B : Bcrypt) (db : DB) (username password : String) :
    (GetUserByUsernameAndPassword B db username password).2
      = { db with log := db.log ++ [.select username] } := by
  unfold GetUserByUsernameAndPassword DB.QueryRowScan
  cases db.queryFault with
  | some msg => simp
  | none =>
    cases db.rows.find? (fun r => r.Username == username) with
    | none => simp
    | some row =>
      simp only
      split <;> rfl

theorem Register_log (u : User) (db : DB) :
    (u.Register db).2.log = db.log ++ [.insert u.Username u.Email u.Password] := by
  unfold User.Register DB.ExecInsert
  cases db.execFault with
  | some msg => simp
  | none =>
    simp only
    split_ifs <;> simp

/-- C8: `RegisterUser` lets a parsed register request past validation if and only if
username, e-mail and password are all non-empty, the username has 3 to 50 characters, the
password has 6 to 50 characters and the e-mail is syntactically valid. Such a request
reaches the store, whose first statement is the lookup of the username; every other
request is answered with status 400 and the message `Invalid request body`, and the store
is returned as it was, with no statement executed. -/
theorem RegisterUser_validation (B : Bcrypt) (L : TokenLib) (isEmail : String → Bool)
    (salt : String) (now : Int) (db : DB) (req : RegisterRequest) :
    (validateStruct isEmail "RegisterRequest" req.fields = none ↔ req.Acceptable isEmail) ∧
    (req.Acceptable isEmail →
      ∃ rest, (RegisterUser B L isEmail salt now db (.parsed req)).2.log
        = db.log ++ DbOp.select req.Username :: rest) ∧
    (¬ req.Acceptable isEmail →
      ∃ err, RegisterUser B L isEmail salt now db (.parsed req)
        = (.response { status := 400, body := [("status", .str "error"),
            ("message", .str "Invalid request body"), ("errors", .str err)] }, db)) := by
  refine ⟨validate_RegisterRequest_iff isEmail req, ?_, ?_⟩
  · intro hacc
    have hv := (validate_RegisterRequest_iff isEmail req).mpr hacc
    unfold RegisterUser
    simp only [hv, sanitizeInput]
    have hdb := GetUserByUsernameAndPassword_db B db req.Username req.Password
    cases hg : GetUserByUsernameAndPassword B db req.Username req.Password with
    | mk res db2 =>
      rw [hg] at hdb
      simp only at hdb
      subst hdb
      match res with
      | .error _ => exact ⟨[], rfl⟩
      | .ok (some _) => exact ⟨[], rfl⟩
      | .ok none =>
        simp only
        cases HashPassword B salt req.Password with
        | error _ => exact ⟨[], rfl⟩
        | ok hashed =>
          simp only
          have hlog := Register_log
            { ID := 0, Username := req.Username, Email := req.Email, Password := hashed }
            { db with log := db.log ++ [.select req.Username] }
          cases hr : User.Register
              { ID := 0, Username := req.Username, Email := req.Email, Password := hashed }
              { db with log := db.log ++ [.select req.Username] } with
          | mk e db3 =>
            rw [hr] at hlog
            simp only at hlog
            refine ⟨[.insert req.Username req.Email hashed], ?_⟩
            cases e with
            | some _ => simpa using hlog
            | none =>
              simp only
              cases GenerateJWT L now req.Username <;> simpa using hlog
  · intro hacc
    have hv : validateStruct isEmail "RegisterRequest" req.fields ≠ none :=
      fun h => hacc ((validate_RegisterRequest_iff isEmail req).mp h)
    cases hvs : validateStruct isEmail "RegisterRequest" req.fields with
    | none => exact absurd hvs hv
    | some err =>
      refine ⟨err, ?_⟩
      simp only [RegisterUser, hvs]

theorem RegisterUser_username_ab :
    RegisterUser modelBcrypt modelTokenLib modelIsEmail "salt" 1700000000 sampleDB
        (.parsed ⟨"ab", "ab@x.com", "secret1"⟩)
      = (.response { status := 400, body := [("status", .str "error"),
            ("message", .str "Invalid request body"),
            ("errors", .str (fieldErrorText "RegisterRequest" "Username" (.min 3)))] },
          sampleDB) := by
  decide

/-! ## C9: the claim set of an issued token -/

/-- C9, as stated, fails: the claim map that `GenerateJWT` builds for user `ann` at time
1700000000 has no entry that holds the issuance time. -/
theorem GenerateJWT_claims_no_issued_at :
    ¬ ∃ k, (GenerateJWT.claims 1700000000 "ann").lookup k = some (.num 1700000000) := by
  rintro ⟨k, hk⟩
  rw [GenerateJWT.claims_eq] at hk
  simp only [List.lookup] at hk
  split at hk
  · simp at hk
  · split at hk
    · simp at hk
    · simp at hk

/-- C9, amended: for every username `u` and issuance time `now`, the claim map of the token
built by `GenerateJWT u` has exactly the two entries `username = u` and
`exp = now + 86400` (24 hours, in Unix seconds), and the token is the serialised header,
this serialised claim map and a signature, joined by dots. -/
theorem GenerateJWT_claim_set (L : TokenLib) (now : Int) (username : String) :
    GenerateJWT.claims now username
        = [("username", .str username), ("exp", .num (now + 86400))] ∧
    ∃ hdr sig, GenerateJWT L now username
        = .ok (hdr ++ "." ++
            L.encodeSegment [("username", .str username), ("exp", .num (now + 86400))] ++
            "." ++ sig) := by
  have hc : GenerateJWT.claims now username
      = [("username", .str username), ("exp", .num (now + 86400))] := by
    rw [GenerateJWT.claims_eq]; norm_num
  refine ⟨hc, L.encodeSegment (New SigningMethodHS256).Header,
    L.hmac "HS256" jwtSecretKey
      (L.encodeSegment (New SigningMethodHS256).Header ++ "." ++
        L.encodeSegment [("username", .str username), ("exp", .num (now + 86400))]), ?_⟩
  rw [GenerateJWT_eq, hc]

/-! ## C10: the middleware maps every rejection to one response -/

theorem startsWith_append (p t : String) : startsWith (p ++ t) p = true := by
  unfold startsWith
  rw [String.data_append, List.isPrefixOf_iff_prefix]
  exact List.prefix_append _ _

theorem trimStart_append (p t : String) : trimStart (p ++ t) p = t := by
  unfold trimStart
  rw [if_pos (startsWith_append p t), String.data_append]
  show String.mk (List.drop p.data.length (p.data ++ t.data)) = t
  rw [List.drop_left]

theorem eq_append_trimStart (s p : String) (h : startsWith s p = true) :
    s = p ++ trimStart s p := by
  have hp : p.data <+: s.data := List.isPrefixOf_iff_prefix.mp h
  obtain ⟨r, hr⟩ := hp
  apply String.ext
  unfold trimStart
  rw [if_pos h, String.data_append]
  show s.data = p.data ++ List.drop p.data.length s.data
  rw [← hr, List.drop_left]

theorem bearer_append_ne_empty (t : String) : "Bearer " ++ t ≠ "" := by
  intro h
  have := congrArg (fun s => s.data.length) h
  simp [String.data_append] at this

/-- C10: for every bearer token string that `ValidateJWT` rejects, whatever the error is,
`ProtectRoute` answers with one and the same response, status 401 with the body
`status = error, message = Invalid or expired token`, and does not call the next handler;
and whenever `ProtectRoute` calls the next handler, the header was `Bearer ` followed by a
token on which `ValidateJWT` succeeded, whose claims it stored. -/
theorem ProtectRoute_unauthorized (L : TokenLib) (now : Int) :
    (∀ tokenString err, ValidateJWT L now tokenString = .error err →
      ProtectRoute L now ("Bearer " ++ tokenString)
        = .respond { status := 401, body := [("status", .str "error"),
            ("message", .str "Invalid or expired token")] }) ∧
    (∀ authHeader locals, ProtectRoute L now authHeader = .next locals →
      ∃ tokenString claims, authHeader = "Bearer " ++ tokenString ∧
        ValidateJWT L now tokenString = .ok claims ∧
        locals = [("claims", .MapClaims claims)]) := by
  constructor
  · intro t err herr
    unfold ProtectRoute
    rw [if_neg (bearer_append_ne_empty t)]
    simp only [startsWith_append, trimStart_append, herr]
    rfl
  · intro a locals hnext
    unfold ProtectRoute at hnext
    split_ifs at hnext with h1 h2
    have hsw : startsWith a "Bearer " = true := by simpa using h2
    refine ⟨trimStart a "Bearer ", ?_⟩
    cases hv : ValidateJWT L now (trimStart a "Bearer ") with
    | error e => simp [hv] at hnext
    | ok claims =>
      simp only [hv] at hnext
      refine ⟨claims, eq_append_trimStart a _ hsw, rfl, ?_⟩
      cases hnext
      rfl

/-! ## C11: the protected endpoint with an issued token -/

theorem protectedRoute_issued (L : TokenLib) (hL : L.Lawful) (username : String)
    (now now2 : Int) (h : now2 < now + 86400) :
    ∃ tok claims, GenerateJWT L now username = .ok tok ∧
      claims.lookup "username" = some (.str username) ∧
      ProtectRoute L now2 ("Bearer " ++ tok) = .next [("claims", .MapClaims claims)] ∧
      protectedRoute L now2 ("Bearer " ++ tok) = .panic
        "interface conversion: interface {} is jwt.MapClaims, not map[string]interface {}" := by
  obtain ⟨tok, claims, hgen, hlook, hval⟩ := ValidateJWT_issued L hL username now now2
  rw [if_pos (by omega)] at hval
  have hprot : ProtectRoute L now2 ("Bearer " ++ tok)
      = .next [("claims", .MapClaims claims)] := by
    unfold ProtectRoute
    rw [if_neg (bearer_append_ne_empty tok)]
    simp only [startsWith_append, trimStart_append, hval]
    rfl
  refine ⟨tok, claims, hgen, ?_, hprot, ?_⟩
  · rw [hlook, GenerateJWT.claims_eq]
    simp [List.lookup]
  · unfold protectedRoute
    rw [hprot]
    rfl

/-- C11, evaluated on the code: the token that `GenerateJWT` issues for `bob` is accepted
by `ProtectRoute`, which stores its claims, with `username = bob`, as a `jwt.MapClaims`;
the handler of `GET /protected` then asserts the type `map[string]interface{}` on them and
panics, so no success response with the user is sent. -/
theorem protectedRoute_issued_token_panics :
    ∃ tok claims, GenerateJWT modelTokenLib 1700000000 "bob" = .ok tok ∧
      claims.lookup "username" = some (.str "bob") ∧
      ProtectRoute modelTokenLib 1700000000 ("Bearer " ++ tok)
        = .next [("claims", .MapClaims claims)] ∧
      protectedRoute modelTokenLib 1700000000 ("Bearer " ++ tok) = .panic
        "interface conversion: interface {} is jwt.MapClaims, not map[string]interface {}" :=
  protectedRoute_issued modelTokenLib modelTokenLib_lawful "bob" 1700000000 1700000000
    (by decide)

/-! ## C12: internal errors in the response -/

theorem LoginUser_store_error (B : Bcrypt) (L : TokenLib) (now : Int) (db : DB)
    (req : LoginRequest) (e : String)
    (hreq : req.Username ≠ "" ∧ req.Password ≠ "") (hq : db.queryFault = some e) :
    (LoginUser B L now db (.parsed req)).1
      = .response { status := 500, body := [("status", .str "error"),
          ("message", .str "Failed to authenticate user"), ("Error", .str e)] } := by
  have hg : (GetUserByUsernameAndPassword B db req.Username req.Password).1 = .error e := by
    unfold GetUserByUsernameAndPassword DB.QueryRowScan
    simp [hq, SqlError.Error]
  unfold LoginUser
  simp only [hreq.1, hreq.2, or_self, if_false]
  cases hgp : GetUserByUsernameAndPassword B db req.Username req.Password with
  | mk res db2 =>
    rw [hgp] at hg
    simp only at hg
    subst hg
    rfl

theorem RegisterUser_store_error_opaque (B : Bcrypt) (L : TokenLib) (isEmail : String → Bool)
    (salt : String) (now : Int) (db : DB) (body : Body RegisterRequest) (e1 e2 : String) :
    (RegisterUser B L isEmail salt now { db with queryFault := some e1 } body).1
      = (RegisterUser B L isEmail salt now { db with queryFault := some e2 } body).1 := by
  cases body with
  | empty => rfl
  | unparsable err => rfl
  | parsed req =>
    cases hv : validateStruct isEmail "RegisterRequest" req.fields with
    | some err => simp only [RegisterUser, hv]
    | none =>
      simp only [RegisterUser, hv, sanitizeInput, GetUserByUsernameAndPassword,
        DB.QueryRowScan]
      rfl

/-- C12, evaluated on the code: two login runs on the same request and the same store that
differ only in the text of the store error are answered with different bodies, because
`LoginUser` copies the error text into the field `Error`; the two register runs with the
same two store errors are answered with one and the same body. -/
theorem LoginUser_exposes_store_error :
    (LoginUser modelBcrypt modelTokenLib 1700000000
        { sampleDB with queryFault := some "dial tcp 127.0.0.1:3306: connection refused" }
        (.parsed ⟨"ann", "secret1"⟩)).1
      = .response { status := 500, body := [("status", .str "error"),
          ("message", .str "Failed to authenticate user"),
          ("Error", .str "dial tcp 127.0.0.1:3306: connection refused")] } ∧
    (LoginUser modelBcrypt modelTokenLib 1700000000
        { sampleDB with queryFault := some "Error 1040: Too many connections" }
        (.parsed ⟨"ann", "secret1"⟩)).1
      = .response { status := 500, body := [("status", .str "error"),
          ("message", .str "Failed to authenticate user"),
          ("Error", .str "Error 1040: Too many connections")] } ∧
    (RegisterUser modelBcrypt modelTokenLib modelIsEmail "salt" 1700000000
        { sampleDB with queryFault := some "dial tcp 127.0.0.1:3306: connection refused" }
        (.parsed ⟨"bob", "bob@x.com", "password1"⟩)).1
      = .response { status := 500, body := [("status", .str "error"),
          ("message", .str "Internal server error")] } ∧
    (RegisterUser modelBcrypt modelTokenLib modelIsEmail "salt" 1700000000
        { sampleDB with queryFault := some "Error 1040: Too many connections" }
        (.parsed ⟨"bob", "bob@x.com", "password1"⟩)).1
      = .response { status := 500, body := [("status", .str "error"),
          ("message", .str "Internal server error")] } := by
  refine ⟨?_, ?_, ?_, ?_⟩ <;> decide

/-! ## C13: hashing and verifying a password -/

theorem string_ne_empty_of_length (s : String) (h : 0 < s.length) : s ≠ "" := by
  intro he
  subst he
  exact absurd h (by decide)

theorem bcryptSalt_length (draw : String) : (bcryptSalt draw).length = 22 := by
  unfold bcryptSalt
  rw [List.length_take, List.length_append, List.length_replicate]
  omega

theorem digit_toNat (k : Nat) (h : k < 10) : (Char.ofNat (48 + k)).toNat - 48 = k := by
  interval_cases k <;> rfl

theorem costOfDigits_costDigits (cost : Nat) (h : cost < 100) :
    costOfDigits (costDigits cost) = cost := by
  unfold costDigits costOfDigits
  simp only
  rw [digit_toNat _ (by omega), digit_toNat _ (by omega)]
  omega

theorem parseHash_formatHash (cost : Nat) (salt digest : List Char) (hcost : cost < 100)
    (hsalt : salt.length = 22) :
    parseHash (formatHash cost salt digest) = some (cost, salt, digest) := by
  have hdata : (formatHash cost salt digest).data
      = '$' :: '2' :: 'a' :: '$' :: Char.ofNat (48 + cost / 10) ::
          Char.ofNat (48 + cost % 10) :: '$' :: (salt ++ digest) := rfl
  have h4 : (formatHash cost salt digest).data.take 4 = ['$', '2', 'a', '$'] := by
    rw [hdata]; rfl
  have h6 : ((formatHash cost salt digest).data.drop 6).take 1 = ['$'] := by
    rw [hdata]; rfl
  have hlen : 29 ≤ (formatHash cost salt digest).data.length := by
    rw [hdata]
    simp only [List.length_cons, List.length_append, hsalt]
    omega
  have hc : ((formatHash cost salt digest).data.drop 4).take 2 = costDigits cost := by
    rw [hdata]; rfl
  have hs : ((formatHash cost salt digest).data.drop 7).take 22 = salt := by
    rw [hdata]
    show List.take 22 (salt ++ digest) = salt
    exact List.take_left' hsalt
  have hd : (formatHash cost salt digest).data.drop 29 = digest := by
    rw [hdata]
    show List.drop 22 (salt ++ digest) = digest
    exact List.drop_left' hsalt
  unfold parseHash
  rw [if_pos ⟨h4, h6, hlen⟩, hc, hs, hd, costOfDigits_costDigits cost hcost]

theorem bcryptModel_generate (core : Nat → List Char → String → List Char)
    (draw password : String) (hne : password ≠ "") (hbytes : password.utf8ByteSize ≤ 72) :
    (bcryptModel core).GenerateFromPassword draw password Bcrypt.DefaultCost
      = .ok (formatHash Bcrypt.DefaultCost (bcryptSalt draw)
          (core Bcrypt.DefaultCost (bcryptSalt draw) password)) := by
  have hb : ¬ 72 < password.utf8ByteSize := by omega
  have hc : ¬ (Bcrypt.DefaultCost < Bcrypt.MinCost ∨ Bcrypt.MaxCost < Bcrypt.DefaultCost) := by
    decide
  show (if password = "" then _ else if 72 < password.utf8ByteSize then _
    else if Bcrypt.DefaultCost < Bcrypt.MinCost ∨ Bcrypt.MaxCost < Bcrypt.DefaultCost then _
    else _) = _
  rw [if_neg hne, if_neg hb, if_neg hc]

theorem bcryptModel_compare (core : Nat → List Char → String → List Char)
    (cost : Nat) (salt : List Char) (password : String) (hcost : cost < 100)
    (hsalt : salt.length = 22) :
    (bcryptModel core).CompareHashAndPassword
      (formatHash cost salt (core cost salt password)) password = none := by
  show (match parseHash (formatHash cost salt (core cost salt password)) with
    | none => _
    | some (c, sl, d) => if core c sl password = d then none else _) = none
  rw [parseHash_formatHash cost salt _ hcost hsalt]
  simp

/-- C13, as stated, fails: the password of fifty euro signs has 50 characters, so it passes
the validation of `RegisterRequest`, but it has 150 bytes and the hasher operates on at
most 72, so `HashPassword` returns an error and `RegisterUser` answers with status 500. -/
theorem HashPassword_refuses_long_password :
    (6 ≤ longPassword.length ∧ longPassword.length ≤ 50) ∧
    validateStruct modelIsEmail "RegisterRequest"
      (RegisterRequest.fields ⟨"bob", "bob@x.com", longPassword⟩) = none ∧
    HashPassword (bcryptModel modelCore) "salt" longPassword
      = .error "bcrypt: password length exceeds 72 bytes" ∧
    (RegisterUser (bcryptModel modelCore) modelTokenLib modelIsEmail "salt" 1700000000
        sampleDB (.parsed ⟨"bob", "bob@x.com", longPassword⟩)).1
      = .response { status := 500, body := [("status", .str "error"),
          ("message", .str "Failed to process registration")] } := by
  refine ⟨by decide, by decide, by rfl, by decide⟩

/-- C13, amended: for every password of 6 to 50 characters that has at most 72 bytes,
`HashPassword` succeeds, the bcrypt comparison of the resulting hash with the same password
reports a match, and `GetUserByUsernameAndPassword` returns the user whose stored password
is that hash; this holds whatever the key-derivation primitive and the salt are. -/
theorem HashPassword_then_compare (core : Nat → List Char → String → List Char)
    (salt password : String)
    (hlen : 6 ≤ password.length ∧ password.length ≤ 50)
    (hbytes : password.utf8ByteSize ≤ 72) :
    ∃ hash, HashPassword (bcryptModel core) salt password = .ok hash ∧
      (bcryptModel core).CompareHashAndPassword hash password = none ∧
      ∀ (db : DB) (user : User), db.queryFault = none →
        db.rows.find? (fun r => r.Username == user.Username) = some user →
        user.Password = hash →
        (GetUserByUsernameAndPassword (bcryptModel core) db user.Username password).1
          = .ok (some user) := by
  have hne : password ≠ "" := string_ne_empty_of_length password (by omega)
  have hgen := bcryptModel_generate core salt password hne hbytes
  have hcmp := bcryptModel_compare core Bcrypt.DefaultCost (bcryptSalt salt) password
    (by decide) (bcryptSalt_length salt)
  refine ⟨_, ?_, hcmp, ?_⟩
  · unfold HashPassword
    rw [hgen]
  · intro db user hq hfind hpw
    unfold GetUserByUsernameAndPassword DB.QueryRowScan
    simp only [hq, hfind, hpw, hcmp]

theorem HashPassword_then_compare_witness :
    ((6 ≤ "secret1".length ∧ "secret1".length ≤ 50) ∧ "secret1".utf8ByteSize ≤ 72) ∧
    ∃ hash, HashPassword (bcryptModel modelCore) "salt" "secret1" = .ok hash ∧
      (bcryptModel modelCore).CompareHashAndPassword hash "secret1" = none ∧
      ∀ (db : DB) (user : User), db.queryFault = none →
        db.rows.find? (fun r => r.Username == user.Username) = some user →
        user.Password = hash →
        (GetUserByUsernameAndPassword (bcryptModel modelCore) db user.Username
          "secret1").1 = .ok (some user) :=
  ⟨⟨by decide, by decide⟩,
    HashPassword_then_compare modelCore "salt" "secret1" (by decide) (by decide)⟩

/-! ## C14: what a registration writes to the store -/

theorem modelBcrypt_lawful : modelBcrypt.Lawful where
  hash_ne_plaintext := by
    intro salt password cost hash h
    have hh : hash = "$2a$10$" ++ salt ++ password := by
      have : (Except.ok ("$2a$10$" ++ salt ++ password) : Except String String)
          = .ok hash := h
      cases this
      rfl
    subst hh
    intro heq
    have hlen := congrArg String.length heq
    have h7 : "$2a$10$".length = 7 := by decide
    rw [String.length_append, String.length_append, h7] at hlen
    omega

theorem ExecInsert_cases (db : DB) (username email password : String) :
    (∃ err, db.ExecInsert username email password
        = (some err, { db with log := db.log ++ [.insert username email password] })) ∨
    db.ExecInsert username email password
      = (none, { db with
          log := db.log ++ [.insert username email password],
          rows := db.rows ++ [{ ID := db.rows.length + 1, Username := username,
                                Email := email, Password := password }] }) := by
  unfold DB.ExecInsert
  cases db.execFault with
  | some msg => exact Or.inl ⟨msg, rfl⟩
  | none =>
    simp only
    split_ifs
    · exact Or.inl ⟨_, rfl⟩
    · exact Or.inr rfl

theorem Register_eq (u : User) (db : DB) :
    u.Register db = db.ExecInsert u.Username u.Email u.Password := by
  unfold User.Register
  rcases ExecInsert_cases db u.Username u.Email u.Password with ⟨err, h⟩ | h <;> rw [h]

theorem HashPassword_ne_plaintext (B : Bcrypt) (hB : B.Lawful) (salt password hash : String)
    (h : HashPassword B salt password = .ok hash) : hash ≠ password := by
  unfold HashPassword at h
  cases hg : B.GenerateFromPassword salt password Bcrypt.DefaultCost with
  | error e => simp [hg] at h
  | ok h2 =>
    simp only [hg] at h
    cases h
    exact hB.hash_ne_plaintext salt password _ _ hg

/-- The runs of `RegisterUser`, by what they leave in the store: nothing; the lookup only;
the lookup and a failed insert of the hash; the lookup and the insert of one row holding
the hash. Only the last kind can answer with status 201. -/
theorem RegisterUser_cases (B : Bcrypt) (L : TokenLib) (isEmail : String → Bool)
    (salt : String) (now : Int) (db : DB) (body : Body RegisterRequest) :
    ((RegisterUser B L isEmail salt now db body).2 = db ∧
      ∀ r, (RegisterUser B L isEmail salt now db body).1 = .response r → r.status ≠ 201) ∨
    (∃ req, body = .parsed req ∧
      (RegisterUser B L isEmail salt now db body).2
        = { db with log := db.log ++ [.select req.Username] } ∧
      ∀ r, (RegisterUser B L isEmail salt now db body).1 = .response r → r.status ≠ 201) ∨
    (∃ req hash, body = .parsed req ∧ HashPassword B salt req.Password = .ok hash ∧
      (RegisterUser B L isEmail salt now db body).2
        = { db with log := db.log ++
              [.select req.Username, .insert req.Username req.Email hash] } ∧
      ∀ r, (RegisterUser B L isEmail salt now db body).1 = .response r → r.status ≠ 201) ∨
    (∃ req hash, body = .parsed req ∧ HashPassword B salt req.Password = .ok hash ∧
      (RegisterUser B L isEmail salt now db body).2
        = { db with
            log := db.log ++ [.select req.Username, .insert req.Username req.Email hash],
            rows := db.rows ++ [{ ID := db.rows.length + 1, Username := req.Username,
                                  Email := req.Email, Password := hash }] }) := by
  cases body with
  | empty =>
    refine Or.inl ⟨rfl, ?_⟩
    intro r hr
    cases hr
    simp
  | unparsable err =>
    refine Or.inl ⟨rfl, ?_⟩
    intro r hr
    cases hr
    simp
  | parsed req =>
    cases hv : validateStruct isEmail "RegisterRequest" req.fields with
    | some err =>
      refine Or.inl ?_
      simp only [RegisterUser, hv]
      refine ⟨trivial, ?_⟩
      intro r hr
      cases hr
      simp
    | none =>
      have hdb := GetUserByUsernameAndPassword_db B db req.Username req.Password
      cases hg : GetUserByUsernameAndPassword B db req.Username req.Password with
      | mk res db1 =>
        rw [hg] at hdb
        simp only at hdb
        subst hdb
        match res, hg with
        | .error e, hg =>
          refine Or.inr (Or.inl ⟨req, rfl, ?_⟩)
          simp only [RegisterUser, hv, sanitizeInput, hg]
          refine ⟨trivial, ?_⟩
          intro r hr
          cases hr
          simp
        | .ok (some u), hg =>
          refine Or.inr (Or.inl ⟨req, rfl, ?_⟩)
          simp only [RegisterUser, hv, sanitizeInput, hg]
          refine ⟨trivial, ?_⟩
          intro r hr
          cases hr
          simp
        | .ok none, hg =>
          cases hh : HashPassword B salt req.Password with
          | error e =>
            refine Or.inr (Or.inl ⟨req, rfl, ?_⟩)
            simp only [RegisterUser, hv, sanitizeInput, hg, hh]
            refine ⟨trivial, ?_⟩
            intro r hr
            cases hr
            simp
          | ok hash =>
            rcases ExecInsert_cases { db with log := db.log ++ [.select req.Username] }
                req.Username req.Email hash with ⟨err, hi⟩ | hi
            · refine Or.inr (Or.inr (Or.inl ⟨req, hash, rfl, hh, ?_⟩))
              simp only [RegisterUser, hv, sanitizeInput, hg, hh, Register_eq, hi]
              refine ⟨by simp, ?_⟩
              intro r hr
              cases hr
              simp
            · refine Or.inr (Or.inr (Or.inr ⟨req, hash, rfl, hh, ?_⟩))
              simp only [RegisterUser, hv, sanitizeInput, hg, hh, Register_eq, hi]
              cases GenerateJWT L now req.Username <;> simp

/-- C14: when `RegisterUser` answers with status 201, exactly one row was added to the
store, carrying the username and e-mail of the request and, as password, the output of
`HashPassword` on the request password, which differs from the plaintext; and on every
run, whatever its answer, each insert statement executed and each row added carries that
hash and not the plaintext. The hasher is a parameter of the embedding and is assumed to
meet the contract of the specification. -/
theorem RegisterUser_stores_hash (B : Bcrypt) (hB : B.Lawful) (L : TokenLib)
    (isEmail : String → Bool) (salt : String) (now : Int) (db : DB)
    (body : Body RegisterRequest) :
    (∀ r, (RegisterUser B L isEmail salt now db body).1 = .response r → r.status = 201 →
      ∃ req hash, body = .parsed req ∧ HashPassword B salt req.Password = .ok hash ∧
        hash ≠ req.Password ∧
        (RegisterUser B L isEmail salt now db body).2.rows
          = db.rows ++ [{ ID := db.rows.length + 1, Username := req.Username,
                          Email := req.Email, Password := hash }] ∧
        (RegisterUser B L isEmail salt now db body).2.log
          = db.log ++ [.select req.Username, .insert req.Username req.Email hash]) ∧
    (∀ u e p, DbOp.insert u e p ∈ (RegisterUser B L isEmail salt now db body).2.log →
      DbOp.insert u e p ∉ db.log →
      ∃ req, body = .parsed req ∧ u = req.Username ∧ e = req.Email ∧
        HashPassword B salt req.Password = .ok p ∧ p ≠ req.Password) ∧
    (∀ row ∈ (RegisterUser B L isEmail salt now db body).2.rows, row ∉ db.rows →
      ∃ req, body = .parsed req ∧ row.Username = req.Username ∧ row.Email = req.Email ∧
        HashPassword B salt req.Password = .ok row.Password ∧
        row.Password ≠ req.Password) := by
  rcases RegisterUser_cases B L isEmail salt now db body with
    ⟨hdb, hst⟩ | ⟨req, hbody, hdb, hst⟩ | ⟨req, hash, hbody, hh, hdb, hst⟩ |
    ⟨req, hash, hbody, hh, hdb⟩
  · refine ⟨fun r hr hok => absurd hok (hst r hr), ?_, ?_⟩
    · intro u e p hin hnot
      rw [hdb] at hin
      exact absurd hin hnot
    · intro row hin hnot
      rw [hdb] at hin
      exact absurd hin hnot
  · refine ⟨fun r hr hok => absurd hok (hst r hr), ?_, ?_⟩
    · intro u e p hin hnot
      rw [hdb] at hin
      simp only [List.mem_append, List.mem_singleton] at hin
      rcases hin with hin | hin
      · exact absurd hin hnot
      · cases hin
    · intro row hin hnot
      rw [hdb] at hin
      exact absurd hin hnot
  · have hne := HashPassword_ne_plaintext B hB salt req.Password hash hh
    refine ⟨fun r hr hok => absurd hok (hst r hr), ?_, ?_⟩
    · intro u e p hin hnot
      rw [hdb] at hin
      simp only [List.mem_append, List.mem_cons, List.mem_singleton, List.not_mem_nil,
        or_false] at hin
      rcases hin with hin | hin | hin
      · exact absurd hin hnot
      · cases hin
      · cases hin
        exact ⟨req, hbody, rfl, rfl, hh, hne⟩
    · intro row hin hnot
      rw [hdb] at hin
      exact absurd hin hnot
  · have hne := HashPassword_ne_plaintext B hB salt req.Password hash hh
    refine ⟨fun r _ _ => ⟨req, hash, hbody, hh, hne, by rw [hdb], by rw [hdb]⟩, ?_, ?_⟩
    · intro u e p hin hnot
      rw [hdb] at hin
      simp only [List.mem_append, List.mem_cons, List.mem_singleton, List.not_mem_nil,
        or_false] at hin
      rcases hin with hin | hin | hin
      · exact absurd hin hnot
      · cases hin
      · cases hin
        exact ⟨req, hbody, rfl, rfl, hh, hne⟩
    · intro row hin hnot
      rw [hdb] at hin
      simp only [List.mem_append, List.mem_singleton] at hin
      rcases hin with hin | hin
      · exact absurd hin hnot
      · subst hin
        exact ⟨req, hbody, rfl, rfl, hh, hne⟩

theorem RegisterUser_stores_hash_witness :
    (modelBcrypt.Lawful ∧
      (RegisterUser modelBcrypt modelTokenLib modelIsEmail "salt" 1700000000 sampleDB
          (.parsed ⟨"bob", "bob@x.com", "password1"⟩)).1
        = .response { status := 201, body := [("status", .str "success"),
            ("message", .str "User registered successfully"),
            ("token", .str (issuedHeader modelTokenLib ++ "." ++
              issuedPayload modelTokenLib 1700000000 "bob" ++ "." ++
              issuedSignature modelTokenLib 1700000000 "bob"))] } ∧
      (201 : Nat) = 201) ∧
    ∃ req hash, Body.parsed (⟨"bob", "bob@x.com", "password1"⟩ : RegisterRequest)
        = .parsed req ∧
      HashPassword modelBcrypt "salt" req.Password = .ok hash ∧
      hash ≠ req.Password ∧
      (RegisterUser modelBcrypt modelTokenLib modelIsEmail "salt" 1700000000 sampleDB
          (.parsed ⟨"bob", "bob@x.com", "password1"⟩)).2.rows
        = sampleDB.rows ++ [{ ID := sampleDB.rows.length + 1, Username := req.Username,
                              Email := req.Email, Password := hash }] ∧
      (RegisterUser modelBcrypt modelTokenLib modelIsEmail "salt" 1700000000 sampleDB
          (.parsed ⟨"bob", "bob@x.com", "password1"⟩)).2.log
        = sampleDB.log ++ [.select req.Username, .insert req.Username req.Email hash] :=
  have hrun : (RegisterUser modelBcrypt modelTokenLib modelIsEmail "salt" 1700000000
      sampleDB (.parsed ⟨"bob", "bob@x.com", "password1"⟩)).1
        = .response { status := 201, body := [("status", .str "success"),
            ("message", .str "User registered successfully"),
            ("token", .str (issuedHeader modelTokenLib ++ "." ++
              issuedPayload modelTokenLib 1700000000 "bob" ++ "." ++
              issuedSignature modelTokenLib 1700000000 "bob"))] } := by
    have hv : validateStruct modelIsEmail "RegisterRequest"
        (RegisterRequest.fields ⟨"bob", "bob@x.com", "password1"⟩) = none := by decide
    have hg : GetUserByUsernameAndPassword modelBcrypt sampleDB "bob" "password1"
        = (.ok none, { sampleDB with log := [.select "bob"] }) := by rfl
    have hh : HashPassword modelBcrypt "salt" "password1" = .ok "$2a$10$saltpassword1" := by
      rfl
    have hi : DB.ExecInsert { sampleDB with log := [.select "bob"] } "bob" "bob@x.com"
        "$2a$10$saltpassword1"
        = (none, { sampleDB with
            log := [.select "bob", .insert "bob" "bob@x.com" "$2a$10$saltpassword1"],
            rows := sampleDB.rows ++ [⟨2, "bob", "bob@x.com", "$2a$10$saltpassword1"⟩] }) := by
      decide
    simp only [RegisterUser, hv, sanitizeInput, hg, hh, Register_eq, hi, GenerateJWT_issued]
  ⟨⟨modelBcrypt_lawful, hrun, rfl⟩,
    (RegisterUser_stores_hash modelBcrypt modelBcrypt_lawful modelTokenLib modelIsEmail
      "salt" 1700000000 sampleDB (.parsed ⟨"bob", "bob@x.com", "password1"⟩)).1 _ hrun rfl⟩

end GoX
